import Mathlib

/-!
Shallow embedding of the CERTIS AGROUTE kingpin reconciliation pipeline
(scripts/convert_to_geojson_kingpin.py and scripts/geocode_kingpin.py).

Strings are modelled as lists of code points (`List Nat`), with the ASCII
semantics of the Python string operations the scripts use (`str.lower`,
`str.upper`, the regexes `\s+`, `[^\w\s]`, `\D+` and the dash-state-suffix
regex).  Python floats are modelled by `PFloat`: an exact rational or one of
the non-finite values NaN / +inf / -inf.  Dictionaries are modelled as
association lists with first-match lookup; `dict.setdefault` keeps the first
binding, plain assignment overwrites.
-/

/-- Code points of a Lean string literal, used to write the scripts' string
constants. -/
def str (s : String) : List Nat := s.data.map Char.toNat

/-- Python `\s` for ASCII: space, tab, newline, carriage return, vertical tab,
form feed. -/
def isWS (c : Nat) : Bool := c = 32 ∨ c = 9 ∨ c = 10 ∨ c = 13 ∨ c = 11 ∨ c = 12

/-- ASCII decimal digit (Python `str.isdigit` / regex `\d` on the data used). -/
def isDigitN (c : Nat) : Bool := 48 ≤ c ∧ c ≤ 57

/-- ASCII letter (the `[A-Za-z]` class of the dash-state-suffix regex). -/
def isAlphaN (c : Nat) : Bool := (65 ≤ c ∧ c ≤ 90) ∨ (97 ≤ c ∧ c ≤ 122)

/-- ASCII `\w`: letters, digits and underscore. -/
def isWordChar (c : Nat) : Bool := isDigitN c ∨ isAlphaN c ∨ c = 95

/-- Python `str.lower` on ASCII. -/
def toLowerN (c : Nat) : Nat := if 65 ≤ c ∧ c ≤ 90 then c + 32 else c

/-- Python `str.upper` on ASCII. -/
def toUpperN (c : Nat) : Nat := if 97 ≤ c ∧ c ≤ 122 then c - 32 else c

def lowerL (l : List Nat) : List Nat := l.map toLowerN

def upperL (l : List Nat) : List Nat := l.map toUpperN

/-- Strip leading whitespace. -/
def stripLead (l : List Nat) : List Nat := l.dropWhile (fun c => isWS c)

/-- Python `str.strip()`: drop leading and trailing whitespace. -/
def stripWS (l : List Nat) : List Nat := ((stripLead l).reverse.dropWhile (fun c => isWS c)).reverse

/-- Replace every whitespace character by a plain space. -/
def wsToSp (c : Nat) : Nat := if isWS c then 32 else c

/-- Collapse adjacent whitespace pairs: together with `wsToSp` this realises
the regex substitution `\s+` -> single space of `_clean_ws`. -/
def squeezeWS : List Nat → List Nat
  | [] => []
  | [a] => [a]
  | a :: b :: t => if isWS a ∧ isWS b then squeezeWS (b :: t) else a :: squeezeWS (b :: t)

/-- `_clean_ws`: `_WS_RE.sub(" ", str(s or "").strip())` — trim, then collapse
every whitespace run to a single space. -/
def cleanWS (l : List Nat) : List Nat := squeezeWS ((stripWS l).map wsToSp)

/-- Python `s.split(" ")` (split on every single space, keeping empty pieces). -/
def splitSp : List Nat → List (List Nat)
  | [] => [[]]
  | c :: cs =>
    if c = 32 then [] :: splitSp cs
    else
      match splitSp cs with
      | h :: t => (c :: h) :: t
      | [] => [[c]]

/-- `re.split(r"[;,]", s)` (split on every comma or semicolon, keeping empty
pieces). -/
def splitSep : List Nat → List (List Nat)
  | [] => [[]]
  | c :: cs =>
    if c = 44 ∨ c = 59 then [] :: splitSep cs
    else
      match splitSep cs with
      | h :: t => (c :: h) :: t
      | [] => [[c]]

/-- Join a list of strings with a separator (Python `sep.join(parts)`). -/
def joinWith (sep : List Nat) : List (List Nat) → List Nat
  | [] => []
  | [p] => p
  | p :: ps => p ++ sep ++ joinWith sep ps

/-- Substring test, Python `needle in hay`. -/
def containsSub (needle : List Nat) : List Nat → Bool
  | [] => needle.isEmpty
  | c :: t => needle.isPrefixOf (c :: t) || containsSub needle t

/-- First-match association-list lookup (Python dict read). -/
def lookupL {α : Type} (m : List (List Nat × α)) (k : List Nat) : Option α :=
  match m with
  | [] => none
  | (k2, v) :: t => if k2 = k then some v else lookupL t k

/-- Python dict assignment `m[k] = v` (overwrite or append). -/
def upsertC {α : Type} (m : List (List Nat × α)) (k : List Nat) (v : α) : List (List Nat × α) :=
  match m with
  | [] => [(k, v)]
  | (k2, v2) :: t => if k2 = k then (k, v) :: t else (k2, v2) :: upsertC t k v

/-- Python `m.setdefault(k, v)` restricted to its effect on the map: the first
binding of a key wins. -/
def setdefaultC {α : Type} (m : List (List Nat × α)) (k : List Nat) (v : α) : List (List Nat × α) :=
  if (lookupL m k).isSome then m else m ++ [(k, v)]

/-- Python `m.setdefault(k, []).append(v)`. -/
def appendB {α : Type} (m : List (List Nat × List α)) (k : List Nat) (v : α) : List (List Nat × List α) :=
  match m with
  | [] => [(k, [v])]
  | (k2, l) :: t => if k2 = k then (k2, l ++ [v]) :: t else (k2, l) :: appendB t k v

/-- `idx.get(k, [])`. -/
def bucket {α : Type} (m : List (List Nat × List α)) (k : List Nat) : List α :=
  match lookupL m k with
  | some l => l
  | none => []

/-- Python truthiness of a string: non-empty. `a or b` on strings. -/
def pyOrS (a b : List Nat) : List Nat := if a = [] then b else a

-- ---------------------------------------------------------------------------
-- Normalization helpers (convert_to_geojson_kingpin.py)
-- ---------------------------------------------------------------------------

def normalize_state (s : List Nat) : List Nat := upperL (cleanWS s)

def normalize_zip (s : List Nat) : List Nat := cleanWS s

/-- `_PUNCT_RE.sub(" ", s)`: every character that is neither `\w` nor `\s`
becomes a space. -/
def punctToSp (l : List Nat) : List Nat :=
  l.map (fun c => if isWordChar c ∨ isWS c then c else 32)

def normalize_city (s : List Nat) : List Nat := cleanWS (punctToSp (lowerL (cleanWS s)))

/-- Transition function of the deterministic automaton recognising the regex
`\s*-\s*([A-Za-z]{2}(?:\s+[A-Za-z]{2})*)\s*` applied to a whole suffix.
State 9 is the dead state. -/
def dashStateStep (st c : Nat) : Nat :=
  if st = 0 then (if isWS c then 0 else if c = 45 then 1 else 9)
  else if st = 1 then (if isWS c then 1 else if isAlphaN c then 2 else 9)
  else if st = 2 then (if isAlphaN c then 3 else 9)
  else if st = 3 then (if isWS c then 4 else 9)
  else if st = 4 then (if isWS c then 4 else if isAlphaN c then 5 else 9)
  else if st = 5 then (if isAlphaN c then 3 else 9)
  else 9

def dashSuffixMatch (l : List Nat) : Bool :=
  let st := l.foldl dashStateStep 0
  st = 3 ∨ st = 4

/-- `DASH_STATE_SUFFIX_RE.sub("", s)`: the regex is anchored at the end of the
string, so `re.sub` removes the suffix starting at the leftmost position from
which the pattern matches through to the end (if any). -/
def stripDashStateSuffix (l : List Nat) : List Nat :=
  match (List.range (l.length + 1)).find? (fun i => dashSuffixMatch (l.drop i)) with
  | some i => l.take i
  | none => l

/-- `s.replace("&", " and ")`. -/
def replaceAmp (l : List Nat) : List Nat :=
  l.flatMap (fun c => if c = 38 then str " and " else [c])

/-- The token rewriting of `normalize_retailer`'s loop. -/
def retailerToken (t : List Nat) : List Nat :=
  if t = str "co" ∨ t = str "co-op" ∨ t = str "coop" ∨ t = str "cooperative" ∨ t = str "cooperatives" then str "cooperative"
  else if t = str "inc" ∨ t = str "incorporated" then str "inc"
  else if t = str "company" ∨ t = str "co." then str "co"
  else t

def normalize_retailer (raw : List Nat) : List Nat :=
  let s0 := cleanWS raw
  let s1 := stripDashStateSuffix s0
  let s2 := lowerL s1
  let s3 := replaceAmp s2
  let s4 := cleanWS (punctToSp s3)
  cleanWS (joinWith [32] ((splitSp s4).map retailerToken))

def ORDINAL_WORDS : List (List Nat × List Nat) :=
  [(str "first", str "1st"), (str "second", str "2nd"), (str "third", str "3rd"),
   (str "fourth", str "4th"), (str "fifth", str "5th"), (str "sixth", str "6th"),
   (str "seventh", str "7th"), (str "eighth", str "8th"), (str "ninth", str "9th"),
   (str "tenth", str "10th")]

def TOKEN_MAP : List (List Nat × List Nat) :=
  [(str "hwy", str "highway"), (str "highwy", str "highway"), (str "rd", str "road"),
   (str "st", str "street"), (str "ave", str "avenue"), (str "blvd", str "boulevard"),
   (str "ln", str "lane"), (str "dr", str "drive"), (str "ct", str "court"),
   (str "trl", str "trail"), (str "pkwy", str "parkway")]

/-- `d.get(t, t)` for a constant token dictionary. -/
def mapTok (m : List (List Nat × List Nat)) (t : List Nat) : List Nat :=
  match lookupL m t with
  | some v => v
  | none => t

def normalize_address (raw : List Nat) : List Nat :=
  let s := cleanWS (punctToSp (lowerL (cleanWS raw)))
  let toks := (splitSp s).map (mapTok ORDINAL_WORDS)
  cleanWS (joinWith [32] (toks.map (mapTok TOKEN_MAP)))

def canonical_suppliers (raw : List Nat) : List Nat :=
  let s := cleanWS raw
  if s = [] then []
  else
    let parts := (splitSep s).filterMap (fun p =>
      let q := cleanWS p
      if q = [] then none else some q)
    joinWith (str ", ") parts

def canonicalize_category (raw : List Nat) : List Nat :=
  let s := cleanWS raw
  if s = [] then []
  else
    let low := lowerL s
    if low = str "nan" ∨ low = str "none" ∨ low = str "null" then []
    else if containsSub (str "corporate") low ∨ containsSub (str "hq") low then str "Corporate HQ"
    else if containsSub (str "distribution") low then str "Distribution"
    else if containsSub (str "c-store") low ∨ containsSub (str "c store") low ∨ containsSub (str "service") low ∨ containsSub (str "energy") low then str "C-Store/Service/Energy"
    else if containsSub (str "grain") low ∨ containsSub (str "feed") low then str "Grain/Feed"
    else if containsSub (str "agronomy") low then str "Agronomy"
    else if containsSub (str "kingpin") low then str "Kingpin"
    else if 44 ∈ s then stripWS (s.takeWhile (fun c => ¬ c = 44))
    else s

-- ---------------------------------------------------------------------------
-- Coordinate safety (convert_to_geojson_kingpin.py)
-- ---------------------------------------------------------------------------

/-- An exact decimal number `mant / 10 ^ exp`: the subset of the rationals
that `float(...)` parsing and 7-decimal rounding produce in these scripts.
Two values are compared semantically with `eqDec`/`leDec`
(cross-multiplication). -/
structure Dec where
  mant : Int
  exp : Nat
deriving DecidableEq

def decDen (d : Dec) : Int := ((10 ^ d.exp : Nat) : Int)

/-- Semantic equality of two decimals. -/
def eqDec (a b : Dec) : Bool := a.mant * decDen b = b.mant * decDen a

/-- Semantic order on decimals (denominators are positive). -/
def leDec (a b : Dec) : Bool := a.mant * decDen b ≤ b.mant * decDen a

def decOfInt (n : Int) : Dec := ⟨n, 0⟩

/-- A Python float: an exact decimal value, or one of the non-finite floats. -/
inductive PFloat where
  | val (d : Dec)
  | nan
  | inf
  | ninf
deriving DecidableEq

/-- A (longitude, latitude) pair. -/
def Coord := PFloat × PFloat

instance : DecidableEq Coord := instDecidableEqProd

/-- Python truthiness of a float (`0.0` is falsy; NaN and the infinities are
truthy). -/
def pfTruthy : PFloat → Bool
  | .val d => ¬ d.mant = 0
  | _ => true

/-- `_is_valid_lonlat`: reject NaN and infinities, then check the geographic
bounds. -/
def isValidLonLat : PFloat → PFloat → Bool
  | .val lon, .val lat =>
    leDec (decOfInt (-180)) lon ∧ leDec lon (decOfInt 180) ∧
    leDec (decOfInt (-90)) lat ∧ leDec lat (decOfInt 90)
  | _, _ => false

/-- Split a list at the first occurrence of a character, if present. -/
def splitAtFirst (sep : Nat) : List Nat → Option (List Nat × List Nat)
  | [] => none
  | c :: t =>
    if c = sep then some ([], t)
    else
      match splitAtFirst sep t with
      | some (a, b) => some (c :: a, b)
      | none => none

def digitsVal (l : List Nat) : Nat := l.foldl (fun a c => a * 10 + (c - 48)) 0

/-- Decimal part of Python `float(s)`: `digits [. digits] [e [sign] digits]`
with a non-empty mantissa.  (Exact decimal semantics; the scripts only
compare and copy the parsed values.) -/
def parseDecimal (sgn : Int) (t : List Nat) : Option PFloat :=
  let (mant, ex) :=
    match splitAtFirst 101 t with
    | some (m, e) => (m, some e)
    | none => (t, none)
  let (ip, fp) :=
    match splitAtFirst 46 mant with
    | some (i, f) => (i, f)
    | none => (mant, [])
  if ip.all (fun c => isDigitN c) ∧ fp.all (fun c => isDigitN c) ∧ ¬ (ip = [] ∧ fp = []) ∧ ¬ (46 ∈ fp) then
    let base : Dec := ⟨sgn * (digitsVal (ip ++ fp) : Int), fp.length⟩
    match ex with
    | none => some (.val base)
    | some e =>
      let (esgn, ed) : Int × List Nat :=
        match e with
        | 43 :: r => (1, r)
        | 45 :: r => (-1, r)
        | r => (1, r)
      if ed ≠ [] ∧ ed.all (fun c => isDigitN c) then
        some (.val (if esgn = 1 then ⟨base.mant * ((10 ^ digitsVal ed : Nat) : Int), base.exp⟩
                    else ⟨base.mant, base.exp + digitsVal ed⟩))
      else none
  else none

/-- Python `float(s)` on a stripped string (signs, `inf`, `infinity`, `nan`,
decimal and scientific notation). -/
def pyFloat (s : List Nat) : Option PFloat :=
  let t := lowerL s
  let (sgn, t2) : Int × List Nat :=
    match t with
    | 43 :: r => (1, r)
    | 45 :: r => (-1, r)
    | r => (1, r)
  if t2 = str "inf" ∨ t2 = str "infinity" then some (if sgn = 1 then .inf else .ninf)
  else if t2 = str "nan" then some .nan
  else parseDecimal sgn t2

/-- `_parse_float_maybe`. -/
def parseFloatMaybe (v : List Nat) : Option PFloat :=
  let s := cleanWS v
  if s = [] then none else pyFloat s

/-- Python `a or b` where `a`, `b` are results of `_parse_float_maybe`
(a parsed `0.0` is falsy and falls through to `b`). -/
def pyOrF (a b : Option PFloat) : Option PFloat :=
  match a with
  | some x => if pfTruthy x then some x else b
  | none => b

-- ---------------------------------------------------------------------------
-- Area code fallback (convert_to_geojson_kingpin.py)
-- ---------------------------------------------------------------------------

/-- `_digits_only`: `PHONE_DIGITS_RE.sub("", phone)`. -/
def digitsOnly (l : List Nat) : List Nat := l.filter (fun c => isDigitN c)

/-- One iteration of `extract_area_code`'s loop on a single phone string. -/
def tryPhone (raw : List Nat) : Option (List Nat) :=
  let d := digitsOnly (cleanWS raw)
  if d = [] then none
  else
    let d2 := if d.length = 11 ∧ d.take 1 = [49] then d.drop 1 else d
    if 10 ≤ d2.length then some (d2.take 3) else none

/-- `extract_area_code(office_phone, cell_phone)`. -/
def extract_area_code (office cell : List Nat) : List Nat :=
  match tryPhone office with
  | some npa => npa
  | none =>
    match tryPhone cell with
    | some npa => npa
    | none => []

/-- One row of the (already parsed) area-code-centers CSV. -/
structure ACRow where
  AREA_CODE : List Nat
  CITY : List Nat
  STATE : List Nat
  ZIP : List Nat
  LAT : List Nat
  LON : List Nat

/-- One value of the loaded area-code-centers table. -/
structure Center where
  City : List Nat
  State : List Nat
  Zip : List Nat
  LAT : PFloat
  LON : PFloat
deriving DecidableEq

/-- `load_area_code_centers`: keep rows with a 3-digit numeric area code and a
valid coordinate; later rows with the same code overwrite earlier ones. -/
def load_area_code_centers (rows : List ACRow) : List (List Nat × Center) :=
  rows.foldl (fun out row =>
    let ac := cleanWS row.AREA_CODE
    if ac = [] ∨ ¬ ac.all (fun c => isDigitN c) ∨ ¬ ac.length = 3 then out
    else
      let city := cleanWS row.CITY
      let st := normalize_state row.STATE
      let z := cleanWS row.ZIP
      match parseFloatMaybe row.LAT, parseFloatMaybe row.LON with
      | some lat, some lon =>
        if isValidLonLat lon lat then upsertC out ac ⟨city, st, z, lat, lon⟩ else out
      | _, _ => out) []

/-- `is_address_usable`. -/
def is_address_usable (addr city st zipc fulladdr : List Nat) : Bool :=
  if ¬ cleanWS fulladdr = [] then true
  else if ¬ cleanWS addr = [] ∧ ¬ cleanWS city = [] ∧ ¬ cleanWS st = [] then true
  else false

-- ---------------------------------------------------------------------------
-- Index keys
-- ---------------------------------------------------------------------------

def address_key (retailer address city state zipc : List Nat) : List Nat :=
  retailer ++ [124] ++ address ++ [124] ++ city ++ [124] ++ state ++ [124] ++ zipc

def addr_no_zip_key (retailer address city state : List Nat) : List Nat :=
  retailer ++ [124] ++ address ++ [124] ++ city ++ [124] ++ state

def city_key (retailer city state zipc : List Nat) : List Nat :=
  retailer ++ [124] ++ city ++ [124] ++ state ++ [124] ++ zipc

def retailer_state_key (retailer state : List Nat) : List Nat :=
  retailer ++ [124] ++ state

-- ---------------------------------------------------------------------------
-- Facility model + loaders
-- ---------------------------------------------------------------------------

structure Facility where
  retailer_raw : List Nat
  retailer_norm : List Nat
  name : List Nat
  address_raw : List Nat
  address_norm : List Nat
  city_raw : List Nat
  city_norm : List Nat
  state : List Nat
  zipc : List Nat
  category : List Nat
  suppliers : List Nat
  longname : List Nat
  lon : PFloat
  lat : PFloat
deriving DecidableEq

/-- A point feature of retailers.geojson, after JSON parsing (only `Point`
features with a two-element coordinate list are modelled; the loader skips
everything else). -/
structure RawFeature where
  coords : List PFloat
  Retailer : List Nat
  Address : List Nat
  City : List Nat
  State : List Nat
  Zip : List Nat
  Category : List Nat
  Suppliers : List Nat
  Name : List Nat
  LongName : List Nat

/-- Per-feature body of `load_retailers_geojson`. -/
def loadFacility (f : RawFeature) : Option Facility :=
  match f.coords with
  | [lon, lat] =>
    if ¬ isValidLonLat lon lat then none
    else
      let r_raw := cleanWS f.Retailer
      let a_raw := cleanWS f.Address
      let c_raw := cleanWS f.City
      let st := normalize_state f.State
      let z := normalize_zip f.Zip
      let cat := canonicalize_category f.Category
      if r_raw = [] ∨ a_raw = [] ∨ c_raw = [] ∨ st = [] ∨ z = [] then none
      else
        some ⟨r_raw, normalize_retailer r_raw, cleanWS f.Name, a_raw, normalize_address a_raw,
              c_raw, normalize_city c_raw, st, z,
              (if cat = [] then str "Agronomy" else cat),
              canonical_suppliers f.Suppliers, cleanWS f.LongName, lon, lat⟩
  | _ => none

def load_retailers_geojson (fs : List RawFeature) : List Facility := fs.filterMap loadFacility

/-- The three facility lookup maps of `build_facility_indexes`. -/
structure FacIdx where
  byAddr : List (List Nat × List Facility)
  byCity : List (List Nat × List Facility)
  byRk : List (List Nat × List Facility)

def build_facility_indexes (facilities : List Facility) : FacIdx :=
  facilities.foldl (fun idx f =>
    { byAddr := appendB idx.byAddr (address_key f.retailer_norm f.address_norm f.city_norm f.state f.zipc) f,
      byCity := appendB idx.byCity (city_key f.retailer_norm f.city_norm f.state f.zipc) f,
      byRk := appendB idx.byRk (retailer_state_key f.retailer_norm f.state) f })
    ⟨[], [], []⟩

/-- The tie-break score of `choose_best_facility`. -/
def facScore (f : Facility) : Nat × Nat × Nat :=
  ((if lowerL f.category = str "corporate hq" then 1 else 0),
   f.address_raw.length,
   max f.name.length f.longname.length)

/-- Strict lexicographic comparison of score triples. -/
def scoreGT (a b : Nat × Nat × Nat) : Bool :=
  a.1 > b.1 ∨ (a.1 = b.1 ∧ (a.2.1 > b.2.1 ∨ (a.2.1 = b.2.1 ∧ a.2.2 > b.2.2)))

/-- `choose_best_facility` on a non-empty candidate list:
`sorted(cands, key=score, reverse=True)[0]` is the earliest candidate with the
maximal score (Python's sort is stable), i.e. a left fold replacing the best
only on a strictly greater score. -/
def choose_best_facility (f : Facility) (rest : List Facility) : Facility :=
  rest.foldl (fun best g => if scoreGT (facScore g) (facScore best) then g else best) f

-- ---------------------------------------------------------------------------
-- Kingpin rows and the coordinate indexes built from kingpin_latlong.xlsx
-- ---------------------------------------------------------------------------

/-- One row produced by `read_kingpins_xlsx` (headers already canonicalised;
all cells are strings). -/
structure Row where
  Retailer : List Nat
  ContactName : List Nat
  Address : List Nat
  City : List Nat
  State : List Nat
  Zip : List Nat
  Email : List Nat
  OfficePhone : List Nat
  CellPhone : List Nat
  Title : List Nat
  ContactTitle : List Nat
  Suppliers : List Nat
  FullAddress : List Nat
  LAT : List Nat
  LON : List Nat
  Latitude : List Nat
  Longitude : List Nat

/-- `is_blank_row`: all core cells clean to the empty string. -/
def is_blank_row (r : Row) : Bool :=
  cleanWS r.Retailer = [] ∧ cleanWS r.ContactName = [] ∧ cleanWS r.Address = [] ∧
  cleanWS r.City = [] ∧ cleanWS r.State = [] ∧ cleanWS r.Zip = [] ∧
  cleanWS r.Email = [] ∧ cleanWS r.OfficePhone = [] ∧ cleanWS r.CellPhone = [] ∧
  cleanWS r.LAT = [] ∧ cleanWS r.LON = [] ∧ cleanWS r.Latitude = [] ∧ cleanWS r.Longitude = []

/-- `get_row_lonlat`. -/
def get_row_lonlat (row : Row) : Option Coord :=
  let lat := pyOrF (parseFloatMaybe row.LAT) (parseFloatMaybe row.Latitude)
  let lon := pyOrF (parseFloatMaybe row.LON) (parseFloatMaybe row.Longitude)
  match lat, lon with
  | some la, some lo => if isValidLonLat lo la then some (lo, la) else none
  | _, _ => none

/-- `_best_addr_source`: prefer Address, else FullAddress (the canonicalised
name of FULL BLOCK ADDRESS; the legacy raw header names are already folded
into `FullAddress` by the reader). -/
def best_addr_source (row : Row) : List Nat :=
  let a := cleanWS row.Address
  if ¬ a = [] then a else cleanWS row.FullAddress

/-- `_norm_parts_for_coords`. -/
def norm_parts_for_coords (row : Row) : List Nat × List Nat × List Nat × List Nat × List Nat :=
  (normalize_retailer (cleanWS row.Retailer),
   normalize_address (best_addr_source row),
   normalize_city (cleanWS row.City),
   normalize_state row.State,
   normalize_zip row.Zip)

/-- The four coordinate maps of `build_coords_indexes`. -/
structure CoordIdx where
  addr : List (List Nat × Coord)
  nozip : List (List Nat × List Coord)
  city : List (List Nat × List Coord)
  rk : List (List Nat × List Coord)

def coordsIndexStep (idx : CoordIdx) (row : Row) : CoordIdx :=
  match get_row_lonlat row with
  | none => idx
  | some ll =>
    match norm_parts_for_coords row with
    | (r_norm, a_norm, c_norm, st, z) =>
      if r_norm = [] ∨ st = [] then idx
      else
        { addr := if ¬ a_norm = [] ∧ ¬ c_norm = [] ∧ ¬ z = [] then
                    setdefaultC idx.addr (address_key r_norm a_norm c_norm st z) ll
                  else idx.addr,
          nozip := if ¬ a_norm = [] ∧ ¬ c_norm = [] then
                    appendB idx.nozip (addr_no_zip_key r_norm a_norm c_norm st) ll
                  else idx.nozip,
          city := if ¬ c_norm = [] ∧ ¬ z = [] then
                    appendB idx.city (city_key r_norm c_norm st z) ll
                  else idx.city,
          rk := appendB idx.rk (retailer_state_key r_norm st) ll }

def build_coords_indexes (latlong_rows : List Row) : CoordIdx :=
  latlong_rows.foldl coordsIndexStep ⟨[], [], [], []⟩

/-- Round half up: `round(p / d)` for a positive denominator `d`, i.e.
the floor of `p / d + 1 / 2`.  (Python's `round` rounds exact halves to even;
the two only differ on exact ties at the 8th decimal.) -/
def roundHalfUp (p d : Int) : Int := (2 * p + d).fdiv (2 * d)

/-- `round(x, 7)` on an exact decimal. -/
def round7d (x : Dec) : Dec :=
  if x.exp ≤ 7 then ⟨x.mant * ((10 ^ (7 - x.exp) : Nat) : Int), 7⟩
  else ⟨roundHalfUp x.mant ((10 ^ (x.exp - 7) : Nat) : Int), 7⟩

/-- `round(x, 7)` on the float model (non-finite values are returned
unchanged, as in Python). -/
def round7 : PFloat → PFloat
  | .val d => .val (round7d d)
  | x => x

def round7c (c : Coord) : Coord := (round7 c.1, round7 c.2)

/-- `_unique_lonlat`: the set of 7-decimal-rounded pairs must be a singleton;
its sole member (the rounded pair) is returned. -/
def unique_lonlat (l : List Coord) : Option Coord :=
  match l with
  | [] => none
  | c :: rest =>
    let r := round7c c
    if rest.all (fun x => round7c x = r) then some r else none

-- ---------------------------------------------------------------------------
-- The per-row coordinate chain over the authoritative table (main, 1053-1079)
-- ---------------------------------------------------------------------------

def stageCoords (idx : CoordIdx) (r_norm a_norm c_norm state zipc ak anz ck rk : List Nat) :
    Option Coord :=
  let l1 := if ¬ a_norm = [] ∧ ¬ c_norm = [] ∧ ¬ state = [] ∧ ¬ zipc = [] then
              lookupL idx.addr ak
            else none
  match l1 with
  | some c => some c
  | none =>
    let l2 := if ¬ a_norm = [] ∧ ¬ c_norm = [] ∧ ¬ state = [] then
                unique_lonlat (bucket idx.nozip anz)
              else none
    match l2 with
    | some c => some c
    | none =>
      let l3 := if ¬ c_norm = [] ∧ ¬ state = [] ∧ ¬ zipc = [] then
                  unique_lonlat (bucket idx.city ck)
                else none
      match l3 with
      | some c => some c
      | none =>
        if ¬ r_norm = [] ∧ ¬ state = [] then unique_lonlat (bucket idx.rk rk) else none

-- ---------------------------------------------------------------------------
-- The tiered facility match (main, 1093-1120)
-- ---------------------------------------------------------------------------

/-- The T1 block (main, 1098-1104). -/
def matchT1 (byAddr : List (List Nat × List Facility)) (a_norm c_norm zipc ak : List Nat) :
    Option Facility :=
  if ¬ a_norm = [] ∧ ¬ c_norm = [] ∧ ¬ zipc = [] then
    match bucket byAddr ak with
    | [] => none
    | f :: fs => some (choose_best_facility f fs)
  else none

/-- The T2 block (main, 1106-1112): only a singleton city bucket matches. -/
def matchT2 (byCity : List (List Nat × List Facility)) (c_norm zipc ck : List Nat) :
    Option Facility :=
  if ¬ c_norm = [] ∧ ¬ zipc = [] then
    match bucket byCity ck with
    | [f] => some f
    | _ => none
  else none

def resolveMatch (fidx : FacIdx) (r_norm a_norm c_norm state zipc ak ck rk : List Nat) :
    Option Facility × List Nat :=
  if ¬ r_norm = [] ∧ ¬ state = [] then
    match matchT1 fidx.byAddr a_norm c_norm zipc ak with
    | some f => (some f, str "T1")
    | none =>
      match matchT2 fidx.byCity c_norm zipc ck with
      | some f => (some f, str "T2")
      | none =>
        match bucket fidx.byRk rk with
        | [] => (none, str "TBD")
        | f :: fs => (some (choose_best_facility f fs), str "T3")
  else (none, str "TBD")

-- ---------------------------------------------------------------------------
-- Geocode cache and the Mapbox call (convert_to_geojson_kingpin.py)
-- ---------------------------------------------------------------------------

/-- `cache_key_full`: `_clean_ws(f"...").lower()`. -/
def cache_key_full (address city state zipc : List Nat) : List Nat :=
  lowerL (cleanWS (address ++ str ", " ++ city ++ str ", " ++ state ++ str " " ++ zipc))

/-- The query string `f"{address}, {city}, {state} {zipc}"` sent to Mapbox. -/
def geoQuery (address city state zipc : List Nat) : List Nat :=
  address ++ str ", " ++ city ++ str ", " ++ state ++ str " " ++ zipc

/-- The HTTP layer of one Mapbox geocoding request (the network transport is
out of scope; the response is a status code and an optional two-element
`center`). -/
structure HttpReply where
  status : Nat
  center : Option Coord

/-- Result processing of `geocode_address_mapbox`: non-200 replies, missing
features and invalid coordinates yield no coordinate. -/
def geocodeResult (reply : HttpReply) : Option Coord :=
  if ¬ reply.status = 200 then none
  else
    match reply.center with
    | none => none
    | some c => if isValidLonLat c.1 c.2 then some c else none

/-- The output record assembled for one kingpin (`props` of main). -/
structure Props where
  Retailer : List Nat
  Suppliers : List Nat
  ContactName : List Nat
  ContactTitle : List Nat
  Title : List Nat
  Email : List Nat
  OfficePhone : List Nat
  CellPhone : List Nat
  Address : List Nat
  City : List Nat
  State : List Nat
  Zip : List Nat
  Category : List Nat
  FacilityName : List Nat
  LongName : List Nat
  MatchTier : List Nat
  GeoSource : List Nat
  FullAddress : List Nat
deriving DecidableEq

def emptyProps : Props := ⟨[], [], [], [], [], [], [], [], [], [], [], [], [], [], [], [], [], []⟩

/-- Result of the optional-Mapbox block (main, 1162-1199). -/
structure GeoRes where
  lonlat : Option Coord
  cache : List (List Nat × Coord)
  props : Props
  netCalls : Nat
  netStatuses : List Nat
  consulted : Bool
  hit : Bool
  writes : Nat

/-- The optional Mapbox geocode block of main: runs only when no coordinate
was found, geocoding is enabled, the address is usable and Address, City,
State and Zip are all non-blank; consults the cache first and issues at most
one network request. -/
def stageGeocode (enabled : Bool) (net : List Nat → HttpReply)
    (cache : List (List Nat × Coord)) (props : Props) (lonlat : Option Coord)
    (address_ok : Bool) (addr city state zipc : List Nat) : GeoRes :=
  if lonlat = none ∧ enabled = true ∧ address_ok = true ∧
     ¬ addr = [] ∧ ¬ city = [] ∧ ¬ state = [] ∧ ¬ zipc = [] then
    let ckf := cache_key_full addr city state zipc
    let cached : Option Coord :=
      match lookupL cache ckf with
      | some c => if isValidLonLat c.1 c.2 then some c else none
      | none => none
    match cached with
    | some c =>
      { lonlat := some c, cache := cache, props := props, netCalls := 0,
        netStatuses := [], consulted := true, hit := true, writes := 0 }
    | none =>
      let reply := net (geoQuery addr city state zipc)
      match geocodeResult reply with
      | some c =>
        { lonlat := some c, cache := upsertC cache ckf c,
          props := { props with GeoSource := str "MAPBOX" }, netCalls := 1,
          netStatuses := [reply.status], consulted := true, hit := false, writes := 1 }
      | none =>
        { lonlat := none, cache := cache, props := props, netCalls := 1,
          netStatuses := [reply.status], consulted := true, hit := false, writes := 0 }
  else
    { lonlat := lonlat, cache := cache, props := props, netCalls := 0,
      netStatuses := [], consulted := false, hit := false, writes := 0 }

-- ---------------------------------------------------------------------------
-- The per-row pipeline of main (994-1208)
-- ---------------------------------------------------------------------------

/-- How one input row leaves the loop: exactly one of the five cases. -/
inductive Outcome where
  | droppedBlank
  | droppedNoAddrNoPhone
  | droppedInvalidFinal (props : Props)
  | emitted (props : Props) (lon lat : PFloat)
  | unmatched (props : Props)

def outcomeKind : Outcome → Nat
  | .droppedBlank => 0
  | .droppedNoAddrNoPhone => 1
  | .droppedInvalidFinal _ => 2
  | .emitted _ _ _ => 3
  | .unmatched _ => 4

def outcomeProps : Outcome → Props
  | .droppedInvalidFinal p => p
  | .emitted p _ _ => p
  | .unmatched p => p
  | _ => emptyProps

def outcomeCoord : Outcome → Option Coord
  | .emitted _ lon lat => some (lon, lat)
  | _ => none

/-- Everything the loop body produces for one row. -/
structure RowResult where
  outcome : Outcome
  cache : List (List Nat × Coord)
  netCalls : Nat
  netStatuses : List Nat
  cacheConsulted : Bool
  cacheHit : Bool
  cacheWrites : Nat
  areaAssigned : Bool

/-- The static inputs of the loop. -/
structure Env where
  areaCenters : List (List Nat × Center)
  fidx : FacIdx
  cidx : CoordIdx
  geocodeEnabled : Bool
  net : List Nat → HttpReply

/-- The synthesized label `f"City Center, {city}, {state} {zipc}".strip(", ").strip()`. -/
def cityCenterLabel (city state zipc : List Nat) : List Nat :=
  stripWS ((((str "City Center, " ++ city ++ str ", " ++ state ++ str " " ++ zipc).dropWhile
      (fun c => c = 44 ∨ c = 32)).reverse.dropWhile (fun c => c = 44 ∨ c = 32)).reverse)

/-- The final hard filter (main, 1201-1208): a present coordinate is emitted
only if it passes `_is_valid_lonlat`; an absent coordinate goes to the
unresolved output. -/
def finalizeOutcome (props : Props) (lonlat : Option Coord) : Outcome :=
  match lonlat with
  | some c => if isValidLonLat c.1 c.2 then .emitted props c.1 c.2 else .droppedInvalidFinal props
  | none => .unmatched props

/-- The facility-enrichment effect on the output record and the facility
coordinate fallback (main, 1139-1159). -/
def enrichProps (props0 : Props) (suppliers_raw : List Nat)
    (mt : Option Facility × List Nat) (lonlat1 : Option Coord) : Props × Option Coord :=
  match mt.1 with
  | some fac =>
    let fs := canonical_suppliers fac.suppliers
    let p := { props0 with
      Category := pyOrS fac.category (str "Agronomy"),
      FacilityName := fac.name, LongName := fac.longname,
      MatchTier := mt.2, GeoSource := str "FACILITY",
      Suppliers := if ¬ fs = [] ∧ ¬ upperL fs = str "TBD" then fs else suppliers_raw }
    match lonlat1 with
    | some c => (p, some c)
    | none => (p, some (fac.lon, fac.lat))
  | none =>
    ({ props0 with
       Category := str "Agronomy", MatchTier := str "TBD",
       GeoSource := if lonlat1.isSome then str "KINGPIN_LATLONG" else str "MAPBOX" },
     lonlat1)

/-- The middle of the loop body, from the matching keys (1042) through the
optional Mapbox block (1199): everything before the final hard filter.
`lonlat0` is the coordinate already assigned by the area-code placement, if
any. -/
def geoStage (E : Env) (cache : List (List Nat × Coord))
    (retailer_raw suppliers_raw contact title email office cell : List Nat)
    (addr_raw city_raw state zipc fulladdr : List Nat)
    (lonlat0 : Option Coord) (address_ok : Bool) : GeoRes :=
  let r_norm := normalize_retailer retailer_raw
  let a_norm := normalize_address addr_raw
  let c_norm := normalize_city city_raw
  let ak := address_key r_norm a_norm c_norm state zipc
  let anz := addr_no_zip_key r_norm a_norm c_norm state
  let ck := city_key r_norm c_norm state zipc
  let rk := retailer_state_key r_norm state
  let lonlat1 :=
    match lonlat0 with
    | some c => some c
    | none => stageCoords E.cidx r_norm a_norm c_norm state zipc ak anz ck rk
  let mt := resolveMatch E.fidx r_norm a_norm c_norm state zipc ak ck rk
  let props0 : Props :=
    { Retailer := retailer_raw, Suppliers := suppliers_raw, ContactName := contact,
      ContactTitle := title, Title := title, Email := email, OfficePhone := office,
      CellPhone := cell, Address := addr_raw, City := city_raw, State := state,
      Zip := zipc, Category := [], FacilityName := [], LongName := [],
      MatchTier := [], GeoSource := [], FullAddress := fulladdr }
  let pl := enrichProps props0 suppliers_raw mt lonlat1
  stageGeocode E.geocodeEnabled E.net cache pl.1 pl.2 address_ok addr_raw city_raw state zipc

/-- The tail of the loop body: `geoStage` followed by the final hard filter
(1201-1208). -/
def processAfterArea (E : Env) (cache : List (List Nat × Coord))
    (retailer_raw suppliers_raw contact title email office cell : List Nat)
    (addr_raw city_raw state zipc fulladdr : List Nat)
    (lonlat0 : Option Coord) (areaAssigned : Bool) (address_ok : Bool) : RowResult :=
  let g := geoStage E cache retailer_raw suppliers_raw contact title email office cell
    addr_raw city_raw state zipc fulladdr lonlat0 address_ok
  { outcome := finalizeOutcome g.props g.lonlat, cache := g.cache, netCalls := g.netCalls,
    netStatuses := g.netStatuses, cacheConsulted := g.consulted, cacheHit := g.hit,
    cacheWrites := g.writes, areaAssigned := areaAssigned }

/-- One iteration of the main loop (994-1208). -/
def processRow (E : Env) (cache : List (List Nat × Coord)) (row : Row) : RowResult :=
  if is_blank_row row then
    { outcome := .droppedBlank, cache := cache, netCalls := 0, netStatuses := [],
      cacheConsulted := false, cacheHit := false, cacheWrites := 0, areaAssigned := false }
  else
    let retailer_raw := cleanWS row.Retailer
    let suppliers_raw := canonical_suppliers row.Suppliers
    let contact := cleanWS row.ContactName
    let title := pyOrS (cleanWS row.Title) (cleanWS row.ContactTitle)
    let email := cleanWS row.Email
    let office := cleanWS row.OfficePhone
    let cell := cleanWS row.CellPhone
    let addr_raw := cleanWS row.Address
    let city_raw := cleanWS row.City
    let state := normalize_state row.State
    let zipc := normalize_zip row.Zip
    let fulladdr := cleanWS row.FullAddress
    let address_ok := is_address_usable addr_raw city_raw state zipc fulladdr
    let phone_ok := ¬ cleanWS office = [] ∨ ¬ cleanWS cell = []
    if address_ok = false ∧ ¬ phone_ok then
      { outcome := .droppedNoAddrNoPhone, cache := cache, netCalls := 0, netStatuses := [],
        cacheConsulted := false, cacheHit := false, cacheWrites := 0, areaAssigned := false }
    else
      if address_ok = false ∧ phone_ok then
        let ac := extract_area_code office cell
        match (if ac = [] then none else lookupL E.areaCenters ac) with
        | none =>
          { outcome := .droppedNoAddrNoPhone, cache := cache, netCalls := 0, netStatuses := [],
            cacheConsulted := false, cacheHit := false, cacheWrites := 0, areaAssigned := false }
        | some cen =>
          let city2 := pyOrS cen.City city_raw
          let state2 := pyOrS cen.State state
          let zip2 := pyOrS cen.Zip zipc
          let full2 := cityCenterLabel city2 state2 zip2
          processAfterArea E cache retailer_raw suppliers_raw contact title email office cell
            [] city2 state2 zip2 full2 (some (cen.LON, cen.LAT)) true address_ok
      else
        processAfterArea E cache retailer_raw suppliers_raw contact title email office cell
          addr_raw city_raw state zipc fulladdr none false address_ok

-- ---------------------------------------------------------------------------
-- The loop over all rows, with the counters of the final stats record
-- ---------------------------------------------------------------------------

structure RunState where
  cache : List (List Nat × Coord)
  enriched : List (Props × PFloat × PFloat)
  unmatchedRows : List Props
  nBlank : Nat
  nNoAddrPhone : Nat
  nInvalidFinal : Nat
  netCalls : Nat

def initRunState : RunState := ⟨[], [], [], 0, 0, 0, 0⟩

def stepOutcome (st : RunState) (r : RowResult) : RunState :=
  match r.outcome with
  | .droppedBlank => { st with nBlank := st.nBlank + 1 }
  | .droppedNoAddrNoPhone => { st with nNoAddrPhone := st.nNoAddrPhone + 1 }
  | .droppedInvalidFinal _ =>
    { st with
      cache := r.cache, netCalls := st.netCalls + r.netCalls,
      nInvalidFinal := st.nInvalidFinal + 1 }
  | .emitted p lon lat =>
    { st with
      cache := r.cache, netCalls := st.netCalls + r.netCalls,
      enriched := st.enriched ++ [(p, lon, lat)] }
  | .unmatched p =>
    { st with
      cache := r.cache, netCalls := st.netCalls + r.netCalls,
      unmatchedRows := st.unmatchedRows ++ [p] }

def stepRun (E : Env) (st : RunState) (row : Row) : RunState :=
  stepOutcome st (processRow E st.cache row)

def runRows (E : Env) (st : RunState) (rows : List Row) : RunState :=
  rows.foldl (stepRun E) st

-- ---------------------------------------------------------------------------
-- geocode_kingpin.py (the separate geocoding run that builds kingpin_latlong)
-- ---------------------------------------------------------------------------

/-- One row of kingpin_COMBINED.xlsx as geocode_kingpin.py sees it (LAT/LON
cells are numbers or NaN after pandas; address cells are text). -/
structure GRow where
  LAT : PFloat
  LON : PFloat
  FBA : List Nat
  ADDRESS : List Nat
  CITY : List Nat
  STATE1 : List Nat
  ZIPCODE : List Nat
  OFFICE : List Nat
  CELL : List Nat

/-- `is_valid_coord` of geocode_kingpin.py (NaN via `pd.isna`, then the range
check; infinities fail the range check). -/
def gkIsValidCoord (lat lon : PFloat) : Bool :=
  match lat, lon with
  | .val la, .val lo =>
    leDec (decOfInt (-90)) la ∧ leDec la (decOfInt 90) ∧
    leDec (decOfInt (-180)) lo ∧ leDec lo (decOfInt 180)
  | _, _ => false

/-- `is_blank` of geocode_kingpin.py on a text cell. -/
def gkIsBlank (v : List Nat) : Bool :=
  let s := stripWS v
  s = [] ∨ lowerL s = str "nan" ∨ lowerL s = str "none" ∨ lowerL s = str "null"

/-- `has_any_address_fields`. -/
def gkHasAnyAddress (r : GRow) : Bool :=
  ¬ (gkIsBlank r.FBA ∧ gkIsBlank r.ADDRESS ∧ gkIsBlank r.CITY ∧ gkIsBlank r.STATE1 ∧ gkIsBlank r.ZIPCODE)

/-- One probe of `extract_area_code`'s per-column logic in geocode_kingpin.py. -/
def gkTryPhone (raw : List Nat) : Option (List Nat) :=
  let d := digitsOnly raw
  if 10 ≤ d.length then some (d.take 3)
  else if 7 ≤ d.length then none
  else if d.length = 3 then some d
  else none

/-- `extract_area_code(row)`: OFFICE PHONE first, then CELL PHONE. -/
def gkExtractAreaCode (r : GRow) : List Nat :=
  match gkTryPhone r.OFFICE with
  | some ac => ac
  | none =>
    match gkTryPhone r.CELL with
    | some ac => ac
    | none => []

/-- One row of area_code_city_centers.csv, already read as strings. -/
structure GKACRow where
  area_code : List Nat
  city : List Nat
  state : List Nat
  zip : List Nat

structure GKCenter where
  city : List Nat
  state : List Nat
  zip : List Nat

/-- `load_area_code_lookup`: rows with a blank code, city or state are
skipped; later rows overwrite earlier ones. -/
def load_area_code_lookup (rows : List GKACRow) : List (List Nat × GKCenter) :=
  rows.foldl (fun lk row =>
    let ac := stripWS row.area_code
    let city := stripWS row.city
    let st := stripWS row.state
    let z := stripWS row.zip
    if ac = [] ∨ city = [] ∨ st = [] then lk
    else upsertC lk ac ⟨city, st, z⟩) []

/-- Python `s.replace(ab, r)` for a two-character pattern and one-character
replacement: one left-to-right pass over non-overlapping occurrences. -/
def replacePair (a b r : Nat) : List Nat → List Nat
  | [] => []
  | [x] => [x]
  | x :: y :: t =>
    if x = a ∧ y = b then r :: replacePair a b r t
    else x :: replacePair a b r (y :: t)

/-- The FULL BLOCK ADDRESS cleanup inside `build_query`. -/
def normalizeFBA (fba : List Nat) : List Nat :=
  let s := stripWS fba
  let s2 := replacePair 44 44 44 s
  let s3 := replacePair 32 44 44 s2
  cleanWS (stripWS s3)

/-- `build_query`. -/
def gkBuildQuery (r : GRow) : List Nat :=
  if ¬ gkIsBlank r.FBA then normalizeFBA r.FBA
  else
    stripWS (joinWith (str ", ")
      (([stripWS r.ADDRESS, stripWS r.CITY, stripWS r.STATE1, stripWS r.ZIPCODE]).filter
        (fun p => ¬ p = [])))

/-- `build_city_center_query`. -/
def build_city_center_query (city state zipc : List Nat) : List Nat :=
  let tail := stripWS (joinWith [32] (([stripWS state, stripWS zipc]).filter (fun p => ¬ p = [])))
  if ¬ tail = [] then str "City Center, " ++ stripWS city ++ str ", " ++ tail
  else
    (((str "City Center, " ++ stripWS city ++ str ", " ++ stripWS state) |> stripWS).reverse.dropWhile
      (fun c => c = 44)).reverse

def natToStr (n : Nat) : List Nat := (Nat.toDigits 10 n).map Char.toNat

def httpStatusStr (code : Nat) : List Nat := str "http_" ++ natToStr code

/-- A geocode cache entry of geocode_kingpin.py (cache keys are a hash of the
query; modelled by the query string itself). -/
structure GCV where
  status : List Nat
  coord : Option Coord

/-- The cross-row state of geocode_kingpin.py's loop. -/
structure GState where
  cache : List (List Nat × GCV)
  saw401 : Bool
  netCalls : Nat

/-- What one loop iteration did: whether a network request was issued, the
HTTP status it got (0 when none was issued) and the GEOCODE_STATUS written. -/
structure GTrace where
  issuedNet : Bool
  http : Nat
  status : List Nat
deriving DecidableEq

inductive GPre where
  | drop
  | missing
  | go (row : GRow)

/-- The pre-query part of the loop body: the area-code rule applied before a
query is built. -/
def gkPre (lk : List (List Nat × GKCenter)) (row : GRow) : GPre :=
  if ¬ gkHasAnyAddress row then
    let ac := gkExtractAreaCode row
    if ac = [] then .drop
    else
      match lookupL lk ac with
      | none => .missing
      | some cen =>
        .go { row with
              ADDRESS := str "City Center", CITY := cen.city, STATE1 := cen.state,
              ZIPCODE := cen.zip, FBA := build_city_center_query cen.city cen.state cen.zip }
  else .go row

/-- Response handling of `mapbox_geocode` plus the caller's cache/abort
logic: `ok` and every failure other than HTTP 401 is written to the cache;
an HTTP 401 sets the abort flag and is not cached. -/
def gkHandleReply (st : GState) (query : List Nat) (reply : HttpReply) : GState × GTrace :=
  if reply.status = 200 then
    match reply.center with
    | some c =>
      ({ st with
         cache := upsertC st.cache query ⟨str "ok", some c⟩,
         netCalls := st.netCalls + 1 },
       ⟨true, 200, str "ok"⟩)
    | none =>
      ({ st with
         cache := upsertC st.cache query ⟨str "no_features", none⟩,
         netCalls := st.netCalls + 1 },
       ⟨true, 200, str "no_features"⟩)
  else if reply.status = 401 then
    ({ st with saw401 := true, netCalls := st.netCalls + 1 }, ⟨true, 401, str "http_401"⟩)
  else if reply.status = 0 then
    ({ st with
       cache := upsertC st.cache query ⟨str "exception", none⟩,
       netCalls := st.netCalls + 1 },
     ⟨true, 0, str "exception"⟩)
  else
    ({ st with
       cache := upsertC st.cache query ⟨httpStatusStr reply.status, none⟩,
       netCalls := st.netCalls + 1 },
     ⟨true, reply.status, httpStatusStr reply.status⟩)

/-- The query-driven part of one loop iteration (431-477): no-query and
no-token short circuits, the once-401-always-401 gate, the cache lookup and
finally the network request. -/
def gkQueryStep (net : List Nat → HttpReply) (hasToken : Bool) (st : GState)
    (query : List Nat) : GState × GTrace :=
  if query = [] then (st, ⟨false, 0, str "missing_query"⟩)
  else if hasToken = false then (st, ⟨false, 0, str "no_token"⟩)
  else if st.saw401 = true then (st, ⟨false, 0, str "http_401"⟩)
  else
    match lookupL st.cache query with
    | some hit => (st, ⟨false, 0, hit.status⟩)
    | none => gkHandleReply st query (net query)

/-- One iteration of geocode_kingpin.py's loop (370-477). -/
def gkStep (net : List Nat → HttpReply) (hasToken : Bool)
    (lk : List (List Nat × GKCenter)) (st : GState) (row : GRow) : GState × GTrace :=
  if gkIsValidCoord row.LAT row.LON then (st, ⟨false, 0, str "skipped_existing"⟩)
  else
    match gkPre lk row with
    | .drop => (st, ⟨false, 0, str "dropped_no_address_no_phone"⟩)
    | .missing => (st, ⟨false, 0, str "missing_area_code_lookup"⟩)
    | .go row2 => gkQueryStep net hasToken st (gkBuildQuery row2)

/-- The whole geocode_kingpin.py run, returning the final state and one trace
per row. -/
def gkRun (net : List Nat → HttpReply) (hasToken : Bool)
    (lk : List (List Nat × GKCenter)) : GState → List GRow → GState × List GTrace
  | st, [] => (st, [])
  | st, r :: rs =>
    let p := gkStep net hasToken lk st r
    let q := gkRun net hasToken lk p.1 rs
    (q.1, p.2 :: q.2)

-- ---------------------------------------------------------------------------
-- Derived helpers used only to state theorems
-- ---------------------------------------------------------------------------

/-- Left-biased choice on options (`a if a is not None else b`). -/
def orO {α : Type} (a b : Option α) : Option α :=
  match a with
  | some x => some x
  | none => b

/-- The exact-address entry a kingpin_latlong row contributes to `idx_addr`
(the conditions of `build_coords_indexes`'s loop body). -/
def rowExactEntry (row : Row) : Option (List Nat × Coord) :=
  match get_row_lonlat row with
  | none => none
  | some ll =>
    match norm_parts_for_coords row with
    | (r_norm, a_norm, c_norm, st, z) =>
      if r_norm = [] ∨ st = [] then none
      else if ¬ a_norm = [] ∧ ¬ c_norm = [] ∧ ¬ z = [] then
        some (address_key r_norm a_norm c_norm st z, ll)
      else none

-- ---------------------------------------------------------------------------
-- Concrete fixtures for the counterexamples and witnesses
-- ---------------------------------------------------------------------------

/-- A facility whose raw address is pure punctuation, so its normalized
address key component is empty. -/
def c4facRaw : RawFeature :=
  { coords := [.val ⟨-93, 0⟩, .val ⟨42, 0⟩],
    Retailer := str "Acme", Address := str "--", City := str "Ames",
    State := str "IA", Zip := str "50010", Category := str "Agronomy",
    Suppliers := str "", Name := str "Acme Ames", LongName := str "" }

def c4fidx : FacIdx := build_facility_indexes (load_retailers_geojson [c4facRaw])

def c4rn : List Nat := normalize_retailer (str "Acme")

def c4an : List Nat := normalize_address (str "--")

def c4cn : List Nat := normalize_city (str "Ames")

def c4ak : List Nat := address_key c4rn c4an c4cn (str "IA") (str "50010")

def c4ck : List Nat := city_key c4rn c4cn (str "IA") (str "50010")

def c4rk : List Nat := retailer_state_key c4rn (str "IA")

/-- Two facilities of a retailer whose name is pure punctuation, in the same
city/state/zip. -/
def c5facRaw1 : RawFeature :=
  { coords := [.val ⟨-93, 0⟩, .val ⟨42, 0⟩],
    Retailer := str "??", Address := str "1 A St", City := str "Ames",
    State := str "IA", Zip := str "50010", Category := str "Agronomy",
    Suppliers := str "", Name := str "N1", LongName := str "" }

def c5facRaw2 : RawFeature :=
  { coords := [.val ⟨-94, 0⟩, .val ⟨41, 0⟩],
    Retailer := str "??", Address := str "2 B St", City := str "Ames",
    State := str "IA", Zip := str "50010", Category := str "Agronomy",
    Suppliers := str "", Name := str "N2", LongName := str "" }

def c5fidx : FacIdx := build_facility_indexes (load_retailers_geojson [c5facRaw1, c5facRaw2])

def c5rn : List Nat := normalize_retailer (str "??")

def c5an : List Nat := normalize_address (str "123 Oak St")

def c5cn : List Nat := normalize_city (str "Ames")

def c5ak : List Nat := address_key c5rn c5an c5cn (str "IA") (str "50010")

def c5ck : List Nat := city_key c5rn c5cn (str "IA") (str "50010")

def c5rk : List Nat := retailer_state_key c5rn (str "IA")

/-- Two facilities of retailer Beta in the same city/state/zip, for the C5
witness (ambiguous city bucket, ordinary retailer name). -/
def c5witFacRaw1 : RawFeature :=
  { coords := [.val ⟨-93, 0⟩, .val ⟨42, 0⟩],
    Retailer := str "Beta", Address := str "1 A St", City := str "Ames",
    State := str "IA", Zip := str "50010", Category := str "Agronomy",
    Suppliers := str "", Name := str "B1", LongName := str "" }

def c5witFacRaw2 : RawFeature :=
  { coords := [.val ⟨-94, 0⟩, .val ⟨41, 0⟩],
    Retailer := str "Beta", Address := str "2 B St", City := str "Ames",
    State := str "IA", Zip := str "50010", Category := str "Agronomy",
    Suppliers := str "", Name := str "B2", LongName := str "" }

def c5witFidx : FacIdx := build_facility_indexes (load_retailers_geojson [c5witFacRaw1, c5witFacRaw2])

def c5witRn : List Nat := normalize_retailer (str "Beta")

def c5witAn : List Nat := normalize_address (str "9 Z St")

def c5witCn : List Nat := normalize_city (str "Ames")

def c5witAk : List Nat := address_key c5witRn c5witAn c5witCn (str "IA") (str "50010")

def c5witCk : List Nat := city_key c5witRn c5witCn (str "IA") (str "50010")

def c5witRk : List Nat := retailer_state_key c5witRn (str "IA")

/-- An ordinary facility for the C4 witness. -/
def c4witFacRaw : RawFeature :=
  { coords := [.val ⟨-93, 0⟩, .val ⟨42, 0⟩],
    Retailer := str "Acme", Address := str "1 Main St", City := str "Ames",
    State := str "IA", Zip := str "50010", Category := str "Agronomy",
    Suppliers := str "", Name := str "Acme Ames", LongName := str "" }

def c4witFidx : FacIdx := build_facility_indexes (load_retailers_geojson [c4witFacRaw])

def c4witRn : List Nat := normalize_retailer (str "Acme")

def c4witAn : List Nat := normalize_address (str "1 Main St")

def c4witCn : List Nat := normalize_city (str "Ames")

def c4witAk : List Nat := address_key c4witRn c4witAn c4witCn (str "IA") (str "50010")

def c4witCk : List Nat := city_key c4witRn c4witCn (str "IA") (str "50010")

def c4witRk : List Nat := retailer_state_key c4witRn (str "IA")

/-- A facility and a matching contact used to exhibit one emitted feature. -/
def c1facRaw : RawFeature :=
  { coords := [.val ⟨-93, 0⟩, .val ⟨42, 0⟩],
    Retailer := str "Acme", Address := str "1 Main St", City := str "Ames",
    State := str "IA", Zip := str "50010", Category := str "Agronomy",
    Suppliers := str "", Name := str "Acme Ames", LongName := str "" }

def c1env : Env :=
  { areaCenters := [], fidx := build_facility_indexes (load_retailers_geojson [c1facRaw]),
    cidx := ⟨[], [], [], []⟩, geocodeEnabled := false, net := fun _ => ⟨0, none⟩ }

def c1row : Row :=
  { Retailer := str "Acme", ContactName := str "Bob", Address := str "1 Main St",
    City := str "Ames", State := str "IA", Zip := str "50010", Email := str "",
    OfficePhone := str "", CellPhone := str "", Title := str "",
    ContactTitle := str "", Suppliers := str "", FullAddress := str "",
    LAT := str "", LON := str "", Latitude := str "", Longitude := str "" }

def c1props : Props := outcomeProps (processRow c1env [] c1row).outcome

/-- An environment with remote geocoding enabled and no other data. -/
def c6env : Env :=
  { areaCenters := [], fidx := ⟨[], [], []⟩, cidx := ⟨[], [], [], []⟩,
    geocodeEnabled := true, net := fun _ => ⟨200, some (.val ⟨1, 0⟩, .val ⟨1, 0⟩)⟩ }

/-- A contact whose only address information is the free-form full address. -/
def c6row : Row :=
  { Retailer := str "Acme", ContactName := str "Bob", Address := str "",
    City := str "", State := str "", Zip := str "", Email := str "",
    OfficePhone := str "", CellPhone := str "", Title := str "",
    ContactTitle := str "", Suppliers := str "",
    FullAddress := str "100 Main St, Ames, IA 50010",
    LAT := str "", LON := str "", Latitude := str "", Longitude := str "" }

/-- An area-code-center row whose ZIP cell is blank. -/
def c7acRow : ACRow :=
  { AREA_CODE := str "515", CITY := str "Des Moines", STATE := str "IA",
    ZIP := str "", LAT := str "41.6", LON := str "-93.6" }

def c7env : Env :=
  { areaCenters := load_area_code_centers [c7acRow], fidx := ⟨[], [], []⟩,
    cidx := ⟨[], [], [], []⟩, geocodeEnabled := false, net := fun _ => ⟨0, none⟩ }

/-- A phone-only contact that nevertheless carries its own zip code. -/
def c7row : Row :=
  { Retailer := str "Acme", ContactName := str "Bob", Address := str "",
    City := str "", State := str "", Zip := str "99999", Email := str "",
    OfficePhone := str "(515) 555-0100", CellPhone := str "", Title := str "",
    ContactTitle := str "", Suppliers := str "", FullAddress := str "",
    LAT := str "", LON := str "", Latitude := str "", Longitude := str "" }

/-- The center the loader produces from `c7acRow` (blank zip retained). -/
def c7cen : Center :=
  { City := str "Des Moines", State := str "IA", Zip := [],
    LAT := .val ⟨416, 1⟩, LON := .val ⟨-936, 1⟩ }

/-- An environment whose remote geocoder always rejects with HTTP 401. -/
def c9env : Env :=
  { areaCenters := [], fidx := ⟨[], [], []⟩, cidx := ⟨[], [], [], []⟩,
    geocodeEnabled := true, net := fun _ => ⟨401, none⟩ }

/-- A geocodable contact (full street/city/state/zip, no coordinates). -/
def c9row : Row :=
  { Retailer := str "Acme", ContactName := str "Bob", Address := str "100 Main St",
    City := str "Ames", State := str "IA", Zip := str "50010", Email := str "",
    OfficePhone := str "", CellPhone := str "", Title := str "",
    ContactTitle := str "", Suppliers := str "", FullAddress := str "",
    LAT := str "", LON := str "", Latitude := str "", Longitude := str "" }

/-- A geocode_kingpin row with no usable coordinate and a full address. -/
def c9grow : GRow :=
  { LAT := .nan, LON := .nan, FBA := str "", ADDRESS := str "100 Main St",
    CITY := str "Ames", STATE1 := str "IA", ZIPCODE := str "50010",
    OFFICE := str "", CELL := str "" }

def c9gnet : List Nat → HttpReply := fun _ => ⟨401, none⟩

def c9ginit : GState := ⟨[], false, 0⟩

/-- The traces the two-row geocode_kingpin run produces against an
always-401 service. -/
def c9gtr0 : GTrace := ⟨true, 401, str "http_401"⟩

def c9gtr1 : GTrace := ⟨false, 0, str "http_401"⟩

/-- At most one of two adjacent characters is whitespace. -/
def wsPair (a b : Nat) : Prop := isWS a = false ∨ isWS b = false

/-- A well-formed address token: non-empty, made of `\w` characters already in
lower case (the shape of every token the address normalizer emits). -/
def goodTok (t : List Nat) : Bool :=
  (¬ t = []) && t.all (fun c => isWordChar c && (toLowerN c = c))

/-- The shape invariant of `_clean_ws` output: every whitespace character is a
plain space, there is no leading or trailing whitespace, and no two adjacent
characters are both whitespace. -/
def WSNormed (l : List Nat) : Prop :=
  (∀ c ∈ l, isWS c = true → c = 32) ∧
  (∀ c, l.head? = some c → isWS c = false) ∧
  (∀ c, l.getLast? = some c → isWS c = false) ∧
  List.Chain' wsPair l

example : normalize_retailer (str "ABC Cooperative - IA") = str "abc cooperative" := by decide

example : normalize_retailer (str "abc co-op") = str "abc cooperative" := by decide

-- ---------------------------------------------------------------------------
-- Helper lemmas
-- ---------------------------------------------------------------------------

theorem unique_lonlat_sound (l : List Coord) (c : Coord) (h : unique_lonlat l = some c) :
    ∀ x ∈ l, round7c x = c := by
  cases l with
  | nil => simp [unique_lonlat] at h
  | cons c0 rest =>
    simp only [unique_lonlat] at h
    split at h
    · rename_i hall
      rw [Option.some_inj] at h
      intro x hx
      rcases List.mem_cons.mp hx with h2 | h2
      · rw [h2, ← h]
      · rw [← h]
        have := List.all_eq_true.mp hall x h2
        exact of_decide_eq_true this
    · exact absurd h (by simp)

theorem lookupL_append {α : Type} (m1 m2 : List (List Nat × α)) (k : List Nat) :
    lookupL (m1 ++ m2) k = orO (lookupL m1 k) (lookupL m2 k) := by
  induction m1 with
  | nil => simp [lookupL, orO]
  | cons p t ih =>
    rcases p with ⟨k2, v⟩
    by_cases hk : k2 = k
    · simp [lookupL, hk, orO]
    · simpa [lookupL, hk] using ih

theorem lookupL_setdefault {α : Type} (m : List (List Nat × α)) (k2 k : List Nat) (v : α) :
    lookupL (setdefaultC m k2 v) k = orO (lookupL m k) (if k2 = k then some v else none) := by
  unfold setdefaultC
  split
  · rename_i hs
    by_cases hk : k2 = k
    · subst hk
      rcases Option.isSome_iff_exists.mp hs with ⟨w, hw⟩
      simp [hw, orO]
    · cases h2 : lookupL m k <;> simp [hk, orO]
  · rw [lookupL_append]
    simp [lookupL]

theorem coordsIndexStep_addr (idx : CoordIdx) (row : Row) (k : List Nat) :
    lookupL (coordsIndexStep idx row).addr k =
      orO (lookupL idx.addr k)
        (match rowExactEntry row with
         | some e => if e.1 = k then (if (lookupL idx.addr e.1).isSome then none else some e.2) else none
         | none => none) := by
  unfold coordsIndexStep rowExactEntry
  cases hll : get_row_lonlat row with
  | none => cases h : lookupL idx.addr k <;> simp [orO, h]
  | some ll =>
    rcases hp : norm_parts_for_coords row with ⟨r_norm, a_norm, c_norm, st, z⟩
    by_cases h1 : r_norm = [] ∨ st = []
    · simp only [if_pos h1]
      cases h : lookupL idx.addr k <;> simp [orO, h]
    · simp only [if_neg h1]
      by_cases h2 : ¬ a_norm = [] ∧ ¬ c_norm = [] ∧ ¬ z = []
      · simp only [if_pos h2]
        rw [lookupL_setdefault]
        by_cases hk : address_key r_norm a_norm c_norm st z = k
        · subst hk
          simp only [if_pos rfl]
          cases h3 : lookupL idx.addr (address_key r_norm a_norm c_norm st z) <;>
            simp [orO, h3]
        · simp [hk]
      · simp only [if_neg h2]
        cases h : lookupL idx.addr k <;> simp [orO, h]

theorem coords_fold_addr (rows : List Row) (idx : CoordIdx) (k : List Nat) :
    lookupL (rows.foldl coordsIndexStep idx).addr k =
      orO (lookupL idx.addr k)
        ((rows.filterMap rowExactEntry).findSome?
          (fun e => if e.1 = k then some e.2 else none)) := by
  induction rows generalizing idx with
  | nil => cases h : lookupL idx.addr k <;> simp [orO, h]
  | cons r rs ih =>
    rw [List.foldl_cons, ih]
    rw [coordsIndexStep_addr]
    cases he : rowExactEntry r with
    | none =>
      simp only [List.filterMap_cons, he]
      cases h : lookupL idx.addr k <;> simp [orO, h]
    | some e =>
      simp only [List.filterMap_cons, he, List.findSome?_cons]
      by_cases hk : e.1 = k
      · subst hk
        simp only [if_pos rfl]
        cases h : lookupL idx.addr e.1 with
        | none => simp [orO, h]
        | some w => simp [orO, h]
      · simp only [if_neg hk]
        cases h : lookupL idx.addr k <;> simp [orO, h]

-- ---------------------------------------------------------------------------
-- C8
-- ---------------------------------------------------------------------------

/-- C8: corrected.  The address-without-zip, city-level and retailer+state
fallbacks accept a bucket only when all coordinates stored under the key agree
AFTER ROUNDING TO 7 DECIMAL PLACES (via `_unique_lonlat`): if two coordinates
under a key differ after that rounding, the fallback yields nothing; whenever
the fallback yields a value, every coordinate under the key rounds to it. -/
theorem c8_unique_agreement :
    (∀ (l : List Coord) (a b : Coord), a ∈ l → b ∈ l → ¬ round7c a = round7c b →
      unique_lonlat l = none) ∧
    (∀ (l : List Coord) (c : Coord), unique_lonlat l = some c → ∀ x ∈ l, round7c x = c) := by
  constructor
  · intro l a b ha hb hne
    cases h : unique_lonlat l with
    | none => rfl
    | some c =>
      exact absurd ((unique_lonlat_sound l c h a ha).trans
        (unique_lonlat_sound l c h b hb).symm) hne
  · exact unique_lonlat_sound

theorem c8_unique_agreement_witness :
    unique_lonlat [((PFloat.val ⟨0, 0⟩ : PFloat), (PFloat.val ⟨0, 0⟩ : PFloat)), (PFloat.val ⟨1, 0⟩, PFloat.val ⟨0, 0⟩)] = none :=
  c8_unique_agreement.1 _ (PFloat.val ⟨0, 0⟩, PFloat.val ⟨0, 0⟩) (PFloat.val ⟨1, 0⟩, PFloat.val ⟨0, 0⟩)
    (by decide) (by decide) (by decide)

/-- C8 counterexample: two DISTINCT coordinates that agree after rounding to 7
decimals are accepted by `_unique_lonlat`, so "two or more distinct
coordinates share the key implies the fallback yields nothing" is false on the
code. -/
theorem c8_counterexample :
    eqDec ⟨0, 0⟩ ⟨1, 9⟩ = false ∧
    unique_lonlat [(PFloat.val ⟨0, 0⟩, PFloat.val ⟨0, 0⟩), (PFloat.val ⟨1, 9⟩, PFloat.val ⟨0, 0⟩)] =
      some (PFloat.val ⟨0, 7⟩, PFloat.val ⟨0, 7⟩) := by
  constructor
  · decide
  · decide

-- ---------------------------------------------------------------------------
-- C10
-- ---------------------------------------------------------------------------

/-- C10: the full exact-address key of the authoritative coordinate index
carries no agreement requirement: the index maps each key to the coordinate of
the FIRST row that contributed it (`dict.setdefault` keeps the first binding),
and the exact-key step of the resolution chain returns that stored coordinate
directly, with no uniqueness check. -/
theorem c10_first_wins :
    (∀ (rows : List Row) (k : List Nat),
      lookupL (build_coords_indexes rows).addr k =
        (rows.filterMap rowExactEntry).findSome?
          (fun e => if e.1 = k then some e.2 else none)) ∧
    (∀ (cidx : CoordIdx) (r_norm a_norm c_norm state zipc ak anz ck rk : List Nat) (c : Coord),
      ¬ a_norm = [] → ¬ c_norm = [] → ¬ state = [] → ¬ zipc = [] →
      lookupL cidx.addr ak = some c →
      stageCoords cidx r_norm a_norm c_norm state zipc ak anz ck rk = some c) := by
  constructor
  · intro rows k
    have h := coords_fold_addr rows ⟨[], [], [], []⟩ k
    simpa [lookupL, orO, build_coords_indexes] using h
  · intro cidx r_norm a_norm c_norm state zipc ak anz ck rk c h1 h2 h3 h4 h5
    unfold stageCoords
    simp [h1, h2, h3, h4, h5]

theorem c10_first_wins_witness :
    stageCoords ⟨[(str "k", ((PFloat.val ⟨1, 0⟩, PFloat.val ⟨2, 0⟩) : Coord))], [], [], []⟩
      (str "r") (str "a") (str "c") (str "s") (str "z") (str "k") (str "x") (str "y") (str "w") =
      some (PFloat.val ⟨1, 0⟩, PFloat.val ⟨2, 0⟩) :=
  c10_first_wins.2 _ (str "r") (str "a") (str "c") (str "s") (str "z") (str "k") (str "x")
    (str "y") (str "w") (PFloat.val ⟨1, 0⟩, PFloat.val ⟨2, 0⟩)
    (by decide) (by decide) (by decide) (by decide) (by decide)

example : normalize_retailer (str "abc co-op") = str "abc cooperative" := by decide

example : normalize_address (str "101 First Hwy.") = str "101 1st highway" := by decide

example : normalize_retailer (str "company") = str "co" := by decide

example : normalize_retailer (str "co") = str "cooperative" := by decide

example : canonicalize_category (str "nan, x") = str "nan" := by decide

example : canonicalize_category (str "nan") = [] := by decide

-- ---------------------------------------------------------------------------
-- C4
-- ---------------------------------------------------------------------------

/-- C4: amended.  If all five normalized key components of a contact are
non-empty and its full 5-part key has a non-empty bucket in the facility
`by_address` index, the resolver reports tier T1 ("Exact"), regardless of what
the city-level or retailer+state buckets contain. -/
theorem c4_exact_tier (fidx : FacIdx) (r_norm a_norm c_norm state zipc ak ck rk : List Nat)
    (h1 : ¬ r_norm = []) (h2 : ¬ state = []) (h3 : ¬ a_norm = []) (h4 : ¬ c_norm = [])
    (h5 : ¬ zipc = []) (h6 : ¬ bucket fidx.byAddr ak = []) :
    (resolveMatch fidx r_norm a_norm c_norm state zipc ak ck rk).2 = str "T1" := by
  unfold resolveMatch matchT1
  rw [if_pos ⟨h1, h2⟩, if_pos ⟨h3, h4, h5⟩]
  cases hb : bucket fidx.byAddr ak with
  | nil => exact absurd hb h6
  | cons f fs => rfl

theorem c4_exact_tier_witness :
    (resolveMatch c4witFidx c4witRn c4witAn c4witCn (str "IA") (str "50010")
      c4witAk c4witCk c4witRk).2 = str "T1" :=
  c4_exact_tier c4witFidx c4witRn c4witAn c4witCn (str "IA") (str "50010")
    c4witAk c4witCk c4witRk (by decide) (by decide) (by decide) (by decide)
    (by decide) (by decide)

/-- C4 counterexample: a contact whose address normalizes to the empty string
(raw address "--").  Its full 5-part key IS present in `by_address` (a facility
with the same punctuation-only address produced it), yet the resolver reports
tier T2, because the T1 block is guarded by non-emptiness of the normalized
address component. -/
theorem c4_counterexample :
    ¬ bucket c4fidx.byAddr c4ak = [] ∧
    (resolveMatch c4fidx c4rn c4an c4cn (str "IA") (str "50010") c4ak c4ck c4rk).2 =
      str "T2" := by
  constructor
  · decide
  · decide

-- ---------------------------------------------------------------------------
-- C5
-- ---------------------------------------------------------------------------

/-- C5: amended.  Provided the contact's normalized retailer key and state are
both non-empty (the resolver only attempts facility matching then): when T1
yields no match and the city-level bucket holds two or more facilities, the
resolver reports T3 if the retailer+state bucket is non-empty and TBD ("None")
otherwise — never T2; and T2 is reported only when the city-level bucket holds
exactly one facility. -/
theorem c5_ambiguous_city (fidx : FacIdx) (r_norm a_norm c_norm state zipc ak ck rk : List Nat)
    (h1 : ¬ r_norm = []) (h2 : ¬ state = []) :
    ((¬ a_norm = [] ∧ ¬ c_norm = [] ∧ ¬ zipc = [] → bucket fidx.byAddr ak = []) →
      2 ≤ (bucket fidx.byCity ck).length →
      (resolveMatch fidx r_norm a_norm c_norm state zipc ak ck rk).2 =
        (if bucket fidx.byRk rk = [] then str "TBD" else str "T3")) ∧
    ((resolveMatch fidx r_norm a_norm c_norm state zipc ak ck rk).2 = str "T2" →
      (bucket fidx.byCity ck).length = 1) := by
  constructor
  · intro hT1 hlen
    have hm1 : matchT1 fidx.byAddr a_norm c_norm zipc ak = none := by
      unfold matchT1
      split
      · rename_i hg
        rw [hT1 hg]
      · rfl
    have hm2 : matchT2 fidx.byCity c_norm zipc ck = none := by
      unfold matchT2
      split
      · cases hb : bucket fidx.byCity ck with
        | nil => rfl
        | cons f fs =>
          cases fs with
          | nil => rw [hb] at hlen; simp at hlen
          | cons g gs => rfl
      · rfl
    unfold resolveMatch
    rw [if_pos ⟨h1, h2⟩, hm1, hm2]
    cases hb : bucket fidx.byRk rk with
    | nil => simp
    | cons f fs => simp
  · intro hT2
    unfold resolveMatch at hT2
    rw [if_pos ⟨h1, h2⟩] at hT2
    cases hm1 : matchT1 fidx.byAddr a_norm c_norm zipc ak with
    | some f =>
      rw [hm1] at hT2
      have hx : str "T1" = str "T2" := hT2
      exact absurd hx (by decide)
    | none =>
      rw [hm1] at hT2
      cases hm2 : matchT2 fidx.byCity c_norm zipc ck with
      | some f =>
        unfold matchT2 at hm2
        by_cases hg : ¬ c_norm = [] ∧ ¬ zipc = []
        · rw [if_pos hg] at hm2
          cases hb : bucket fidx.byCity ck with
          | nil => rw [hb] at hm2; exact absurd hm2 (by simp)
          | cons x xs =>
            cases xs with
            | nil => rfl
            | cons y ys => rw [hb] at hm2; exact absurd hm2 (by simp)
        · rw [if_neg hg] at hm2; exact absurd hm2 (by simp)
      | none =>
        rw [hm2] at hT2
        cases hb : bucket fidx.byRk rk with
        | nil =>
          rw [hb] at hT2
          have hx : str "TBD" = str "T2" := hT2
          exact absurd hx (by decide)
        | cons f fs =>
          rw [hb] at hT2
          have hx : str "T3" = str "T2" := hT2
          exact absurd hx (by decide)

theorem c5_ambiguous_city_witness :
    (resolveMatch c5witFidx c5witRn c5witAn c5witCn (str "IA") (str "50010")
      c5witAk c5witCk c5witRk).2 =
      (if bucket c5witFidx.byRk c5witRk = [] then str "TBD" else str "T3") :=
  (c5_ambiguous_city c5witFidx c5witRn c5witAn c5witCn (str "IA") (str "50010")
    c5witAk c5witCk c5witRk (by decide) (by decide)).1 (by decide) (by decide)

-- ---------------------------------------------------------------------------
-- C6
-- ---------------------------------------------------------------------------

/-- C6: amended.  The optional remote-geocode block runs only when, in
addition to the prior steps yielding no coordinate and geocoding being
enabled, the contact's Address, City, State AND Zip are all non-blank (a
free-form full address alone does not trigger it).  When it runs, the cache
is consulted first; a valid cached entry is used with zero network calls; at
most one network call is made, and exactly one on a cache miss. -/
theorem c6_geocode_trigger (net : List Nat → HttpReply) (cache : List (List Nat × Coord))
    (props : Props) (address_ok : Bool) (addr city state zipc : List Nat)
    (h1 : ¬ addr = []) (h2 : ¬ city = []) (h3 : ¬ state = []) (h4 : ¬ zipc = [])
    (h5 : address_ok = true) :
    (stageGeocode true net cache props none address_ok addr city state zipc).consulted = true ∧
    (stageGeocode true net cache props none address_ok addr city state zipc).netCalls ≤ 1 ∧
    (lookupL cache (cache_key_full addr city state zipc) = none →
      (stageGeocode true net cache props none address_ok addr city state zipc).netCalls = 1) ∧
    (∀ c : Coord, lookupL cache (cache_key_full addr city state zipc) = some c →
      isValidLonLat c.1 c.2 = true →
      (stageGeocode true net cache props none address_ok addr city state zipc).netCalls = 0 ∧
      (stageGeocode true net cache props none address_ok addr city state zipc).lonlat = some c) := by
  unfold stageGeocode
  rw [if_pos ⟨rfl, rfl, h5, h1, h2, h3, h4⟩]
  cases hlk : lookupL cache (cache_key_full addr city state zipc) with
  | none =>
    cases hg : geocodeResult (net (geoQuery addr city state zipc)) with
    | none => refine ⟨?_, ?_, ?_, ?_⟩ <;> simp [hlk, hg]
    | some c1 => refine ⟨?_, ?_, ?_, ?_⟩ <;> simp [hlk, hg]
  | some c0 =>
    by_cases hv : isValidLonLat c0.1 c0.2 = true
    · refine ⟨?_, ?_, ?_, ?_⟩ <;> simp [hlk, hv]
    · cases hg : geocodeResult (net (geoQuery addr city state zipc)) with
      | none => refine ⟨?_, ?_, ?_, ?_⟩ <;> simp [hlk, hv, hg]
      | some c1 => refine ⟨?_, ?_, ?_, ?_⟩ <;> simp [hlk, hv, hg]

theorem c6_geocode_trigger_witness :
    (stageGeocode true (fun _ => ⟨200, some (.val ⟨1, 0⟩, .val ⟨1, 0⟩)⟩) [] emptyProps none true
      (str "100 Main St") (str "Ames") (str "IA") (str "50010")).netCalls = 1 :=
  (c6_geocode_trigger (fun _ => ⟨200, some (.val ⟨1, 0⟩, .val ⟨1, 0⟩)⟩) [] emptyProps true
    (str "100 Main St") (str "Ames") (str "IA") (str "50010")
    (by decide) (by decide) (by decide) (by decide) rfl).2.2.1 rfl

/-- C6 counterexample: a contact whose only address data is the free-form
full address.  The address counts as usable and geocoding is enabled, yet the
remote-geocode block never runs: the cache is not consulted, no network call
is made, and the row leaves as unresolved. -/
theorem c6_counterexample :
    c6env.geocodeEnabled = true ∧
    is_address_usable (cleanWS c6row.Address) (cleanWS c6row.City) (normalize_state c6row.State)
      (normalize_zip c6row.Zip) (cleanWS c6row.FullAddress) = true ∧
    (processRow c6env [] c6row).cacheConsulted = false ∧
    (processRow c6env [] c6row).netCalls = 0 ∧
    outcomeKind (processRow c6env [] c6row).outcome = 4 := by
  exact ⟨rfl, by decide, by decide, by decide, by decide⟩

-- ---------------------------------------------------------------------------
-- C1
-- ---------------------------------------------------------------------------

theorem finalize_emitted (p0 : Props) (ll : Option Coord) (p : Props) (lon lat : PFloat)
    (h : finalizeOutcome p0 ll = .emitted p lon lat) : isValidLonLat lon lat = true := by
  cases ll with
  | none => exact absurd h (by simp [finalizeOutcome])
  | some c =>
    simp only [finalizeOutcome] at h
    by_cases hv : isValidLonLat c.1 c.2 = true
    · rw [if_pos hv] at h
      injection h with h1 h2 h3
      rw [← h2, ← h3]
      exact hv
    · rw [if_neg hv] at h
      exact absurd h (by simp)

theorem processAfterArea_valid (E : Env) (cache : List (List Nat × Coord))
    (a1 a2 a3 a4 a5 a6 a7 b1 b2 b3 b4 b5 : List Nat) (ll0 : Option Coord) (aa aok : Bool)
    (p : Props) (lon lat : PFloat)
    (h : (processAfterArea E cache a1 a2 a3 a4 a5 a6 a7 b1 b2 b3 b4 b5 ll0 aa aok).outcome =
      .emitted p lon lat) :
    isValidLonLat lon lat = true := by
  simp only [processAfterArea] at h
  exact finalize_emitted _ _ _ _ _ h

theorem processRow_emitted_valid (E : Env) (cache : List (List Nat × Coord)) (row : Row)
    (p : Props) (lon lat : PFloat)
    (h : (processRow E cache row).outcome = .emitted p lon lat) :
    isValidLonLat lon lat = true := by
  unfold processRow at h
  split at h
  · exact absurd h (by simp)
  · simp only [] at h
    split at h
    · exact absurd h (by simp)
    · split at h
      · split at h
        · exact absurd h (by simp)
        · exact processAfterArea_valid _ _ _ _ _ _ _ _ _ _ _ _ _ _ _ _ _ _ _ _ h
      · exact processAfterArea_valid _ _ _ _ _ _ _ _ _ _ _ _ _ _ _ _ _ _ _ _ h

theorem runRows_enriched_valid (E : Env) (rows : List Row) (st : RunState)
    (hst : ∀ q ∈ st.enriched, isValidLonLat q.2.1 q.2.2 = true) :
    ∀ q ∈ (runRows E st rows).enriched, isValidLonLat q.2.1 q.2.2 = true := by
  induction rows generalizing st with
  | nil => exact hst
  | cons row rs ih =>
    refine ih (stepRun E st row) ?_
    intro q hq
    have hq2 : q ∈ (stepOutcome st (processRow E st.cache row)).enriched := hq
    rcases hr : processRow E st.cache row with ⟨o, cc, n1, ns, b1, b2, n3, b3⟩
    rw [hr] at hq2
    cases o with
    | droppedBlank => exact hst q (by simpa [stepOutcome] using hq2)
    | droppedNoAddrNoPhone => exact hst q (by simpa [stepOutcome] using hq2)
    | droppedInvalidFinal p2 => exact hst q (by simpa [stepOutcome] using hq2)
    | unmatched p2 => exact hst q (by simpa [stepOutcome] using hq2)
    | emitted p2 lon lat =>
      simp only [stepOutcome, List.mem_append, List.mem_singleton] at hq2
      rcases hq2 with hq2 | hq2
      · exact hst q hq2
      · subst hq2
        exact processRow_emitted_valid E st.cache row p2 lon lat (by rw [hr])

/-- Unpacking of `_is_valid_lonlat`: a passing pair is two finite decimals
within the geographic bounds (so neither NaN, infinite nor missing). -/
theorem isValidLonLat_spec (lon lat : PFloat) (h : isValidLonLat lon lat = true) :
    ∃ dlon dlat : Dec, lon = .val dlon ∧ lat = .val dlat ∧
      leDec (decOfInt (-180)) dlon = true ∧ leDec dlon (decOfInt 180) = true ∧
      leDec (decOfInt (-90)) dlat = true ∧ leDec dlat (decOfInt 90) = true := by
  cases lon with
  | val dlon =>
    cases lat with
    | val dlat =>
      simp only [isValidLonLat, decide_eq_true_eq] at h
      exact ⟨dlon, dlat, rfl, rfl, by simp [h.1], by simp [h.2.1], by simp [h.2.2.1], by simp [h.2.2.2]⟩
    | nan => simp [isValidLonLat] at h
    | inf => simp [isValidLonLat] at h
    | ninf => simp [isValidLonLat] at h
  | nan => simp [isValidLonLat] at h
  | inf => simp [isValidLonLat] at h
  | ninf => simp [isValidLonLat] at h

/-- C1: every record of the resolved/enriched output (hence every feature of
the emitted GeoJSON collection, which is built from it with the same check)
carries a finite longitude in [-180, 180] and a finite latitude in [-90, 90]:
no missing, NaN, infinite or out-of-range coordinate from any source survives
the final `_is_valid_lonlat` gate. -/
theorem c1_coordinate_validity (E : Env) (rows : List Row) (p : Props) (lon lat : PFloat)
    (h : (p, lon, lat) ∈ (runRows E initRunState rows).enriched) :
    isValidLonLat lon lat = true ∧
    ∃ dlon dlat : Dec, lon = .val dlon ∧ lat = .val dlat ∧
      leDec (decOfInt (-180)) dlon = true ∧ leDec dlon (decOfInt 180) = true ∧
      leDec (decOfInt (-90)) dlat = true ∧ leDec dlat (decOfInt 90) = true := by
  have hv := runRows_enriched_valid E rows initRunState (by simp [initRunState]) (p, lon, lat) h
  exact ⟨hv, isValidLonLat_spec lon lat hv⟩

theorem c1_coordinate_validity_witness :
    isValidLonLat (PFloat.val ⟨-93, 0⟩) (PFloat.val ⟨42, 0⟩) = true :=
  (c1_coordinate_validity c1env [c1row] c1props (PFloat.val ⟨-93, 0⟩) (PFloat.val ⟨42, 0⟩)
    (by decide)).1

-- ---------------------------------------------------------------------------
-- C3
-- ---------------------------------------------------------------------------

theorem stepRun_total (E : Env) (st : RunState) (row : Row) :
    (stepRun E st row).enriched.length + (stepRun E st row).unmatchedRows.length +
    (stepRun E st row).nBlank + (stepRun E st row).nNoAddrPhone +
    (stepRun E st row).nInvalidFinal =
    st.enriched.length + st.unmatchedRows.length + st.nBlank + st.nNoAddrPhone +
    st.nInvalidFinal + 1 := by
  unfold stepRun
  rcases processRow E st.cache row with ⟨o, cc, n1, ns, b1, b2, n3, b3⟩
  cases o <;> simp [stepOutcome] <;> omega

theorem runRows_total (E : Env) (rows : List Row) (st : RunState) :
    (runRows E st rows).enriched.length + (runRows E st rows).unmatchedRows.length +
    (runRows E st rows).nBlank + (runRows E st rows).nNoAddrPhone +
    (runRows E st rows).nInvalidFinal =
    st.enriched.length + st.unmatchedRows.length + st.nBlank + st.nNoAddrPhone +
    st.nInvalidFinal + rows.length := by
  induction rows generalizing st with
  | nil => simp [runRows]
  | cons row rs ih =>
    have h1 := ih (stepRun E st row)
    have h2 := stepRun_total E st row
    unfold runRows at h1 ⊢
    rw [List.foldl_cons]
    rw [h1, h2]
    simp
    omega

/-- C3: the emitted counters reconcile exactly — resolved (enriched) records
plus unresolved records plus blank-dropped rows plus
no-address-no-phone-dropped rows plus rows dropped at the final invalid-
coordinate gate equals the number of input rows: every input row takes
exactly one of the five exits of the loop. -/
theorem c3_conservation (E : Env) (rows : List Row) :
    (runRows E initRunState rows).enriched.length +
    (runRows E initRunState rows).unmatchedRows.length +
    (runRows E initRunState rows).nBlank +
    (runRows E initRunState rows).nNoAddrPhone +
    (runRows E initRunState rows).nInvalidFinal = rows.length := by
  have h := runRows_total E rows initRunState
  simpa [initRunState] using h

-- ---------------------------------------------------------------------------
-- C7
-- ---------------------------------------------------------------------------

theorem stageGeocode_some (en : Bool) (net : List Nat → HttpReply)
    (cache : List (List Nat × Coord)) (props : Props) (cc : Coord) (aok : Bool)
    (addr city state zipc : List Nat) :
    stageGeocode en net cache props (some cc) aok addr city state zipc =
      { lonlat := some cc, cache := cache, props := props, netCalls := 0, netStatuses := [],
        consulted := false, hit := false, writes := 0 } := by
  unfold stageGeocode
  rw [if_neg (fun hc => Option.noConfusion hc.1)]

theorem enrichProps_snd (props0 : Props) (s : List Nat) (mt : Option Facility × List Nat)
    (cc : Coord) : (enrichProps props0 s mt (some cc)).2 = some cc := by
  rcases mt with ⟨mf, tier⟩
  cases mf <;> simp [enrichProps]

theorem enrichProps_Address (props0 : Props) (s : List Nat) (mt : Option Facility × List Nat)
    (ll : Option Coord) : (enrichProps props0 s mt ll).1.Address = props0.Address := by
  rcases mt with ⟨mf, tier⟩
  cases mf <;> cases ll <;> simp [enrichProps]

theorem enrichProps_City (props0 : Props) (s : List Nat) (mt : Option Facility × List Nat)
    (ll : Option Coord) : (enrichProps props0 s mt ll).1.City = props0.City := by
  rcases mt with ⟨mf, tier⟩
  cases mf <;> cases ll <;> simp [enrichProps]

theorem enrichProps_State (props0 : Props) (s : List Nat) (mt : Option Facility × List Nat)
    (ll : Option Coord) : (enrichProps props0 s mt ll).1.State = props0.State := by
  rcases mt with ⟨mf, tier⟩
  cases mf <;> cases ll <;> simp [enrichProps]

theorem enrichProps_Zip (props0 : Props) (s : List Nat) (mt : Option Facility × List Nat)
    (ll : Option Coord) : (enrichProps props0 s mt ll).1.Zip = props0.Zip := by
  rcases mt with ⟨mf, tier⟩
  cases mf <;> cases ll <;> simp [enrichProps]

theorem enrichProps_FullAddress (props0 : Props) (s : List Nat) (mt : Option Facility × List Nat)
    (ll : Option Coord) : (enrichProps props0 s mt ll).1.FullAddress = props0.FullAddress := by
  rcases mt with ⟨mf, tier⟩
  cases mf <;> cases ll <;> simp [enrichProps]

theorem geoStage_some (E : Env) (cache : List (List Nat × Coord))
    (a1 a2 a3 a4 a5 a6 a7 b1 b2 b3 b4 b5 : List Nat) (cc : Coord) (aok : Bool) :
    (geoStage E cache a1 a2 a3 a4 a5 a6 a7 b1 b2 b3 b4 b5 (some cc) aok).lonlat = some cc ∧
    (geoStage E cache a1 a2 a3 a4 a5 a6 a7 b1 b2 b3 b4 b5 (some cc) aok).props.Address = b1 ∧
    (geoStage E cache a1 a2 a3 a4 a5 a6 a7 b1 b2 b3 b4 b5 (some cc) aok).props.City = b2 ∧
    (geoStage E cache a1 a2 a3 a4 a5 a6 a7 b1 b2 b3 b4 b5 (some cc) aok).props.State = b3 ∧
    (geoStage E cache a1 a2 a3 a4 a5 a6 a7 b1 b2 b3 b4 b5 (some cc) aok).props.Zip = b4 ∧
    (geoStage E cache a1 a2 a3 a4 a5 a6 a7 b1 b2 b3 b4 b5 (some cc) aok).props.FullAddress = b5 := by
  unfold geoStage
  simp only [enrichProps_snd, stageGeocode_some, enrichProps_Address, enrichProps_City,
    enrichProps_State, enrichProps_Zip, enrichProps_FullAddress]
  exact ⟨trivial, trivial, trivial, trivial, trivial, trivial⟩

/-- C7: amended.  For a non-blank contact with no usable address but at least
one phone: if the extracted area code is found in the area-code-center table,
the contact is emitted at the center's (valid) coordinate with a blank
Address, with City/State/Zip set to the center's values WHERE THE CENTER'S
FIELD IS NON-BLANK (a blank center field leaves the contact's own value in
place), and with the synthesized "City Center, city, state zip" label built
from those merged values; if no area code can be extracted or the code is not
in the table, the contact is dropped and counted under the
no-address-no-phone counter. -/
theorem c7_area_code (E : Env) (cache : List (List Nat × Coord)) (row : Row) (cen : Center)
    (hb : is_blank_row row = false)
    (ha : is_address_usable (cleanWS row.Address) (cleanWS row.City) (normalize_state row.State)
      (normalize_zip row.Zip) (cleanWS row.FullAddress) = false)
    (hp : ¬ cleanWS (cleanWS row.OfficePhone) = [] ∨ ¬ cleanWS (cleanWS row.CellPhone) = []) :
    ((¬ extract_area_code (cleanWS row.OfficePhone) (cleanWS row.CellPhone) = []) →
      lookupL E.areaCenters (extract_area_code (cleanWS row.OfficePhone) (cleanWS row.CellPhone)) =
        some cen →
      isValidLonLat cen.LON cen.LAT = true →
      outcomeKind (processRow E cache row).outcome = 3 ∧
      outcomeCoord (processRow E cache row).outcome = some (cen.LON, cen.LAT) ∧
      (outcomeProps (processRow E cache row).outcome).Address = [] ∧
      (outcomeProps (processRow E cache row).outcome).City = pyOrS cen.City (cleanWS row.City) ∧
      (outcomeProps (processRow E cache row).outcome).State =
        pyOrS cen.State (normalize_state row.State) ∧
      (outcomeProps (processRow E cache row).outcome).Zip = pyOrS cen.Zip (normalize_zip row.Zip) ∧
      (outcomeProps (processRow E cache row).outcome).FullAddress =
        cityCenterLabel (pyOrS cen.City (cleanWS row.City))
          (pyOrS cen.State (normalize_state row.State)) (pyOrS cen.Zip (normalize_zip row.Zip))) ∧
    ((extract_area_code (cleanWS row.OfficePhone) (cleanWS row.CellPhone) = [] ∨
      lookupL E.areaCenters (extract_area_code (cleanWS row.OfficePhone) (cleanWS row.CellPhone)) =
        none) →
      outcomeKind (processRow E cache row).outcome = 1) := by
  constructor
  · intro hac hlk hv
    have hload : processRow E cache row =
        processAfterArea E cache (cleanWS row.Retailer) (canonical_suppliers row.Suppliers)
          (cleanWS row.ContactName) (pyOrS (cleanWS row.Title) (cleanWS row.ContactTitle))
          (cleanWS row.Email) (cleanWS row.OfficePhone) (cleanWS row.CellPhone)
          [] (pyOrS cen.City (cleanWS row.City)) (pyOrS cen.State (normalize_state row.State))
          (pyOrS cen.Zip (normalize_zip row.Zip))
          (cityCenterLabel (pyOrS cen.City (cleanWS row.City))
            (pyOrS cen.State (normalize_state row.State)) (pyOrS cen.Zip (normalize_zip row.Zip)))
          (some (cen.LON, cen.LAT)) true
          (is_address_usable (cleanWS row.Address) (cleanWS row.City) (normalize_state row.State)
            (normalize_zip row.Zip) (cleanWS row.FullAddress)) := by
      unfold processRow
      rw [if_neg (by simp [hb])]
      simp only []
      rw [if_neg (fun hcon => hcon.2 hp), if_pos ⟨ha, hp⟩, if_neg hac, hlk]
    rw [hload]
    simp only [processAfterArea]
    obtain ⟨hl, hA, hC, hS, hZ, hF⟩ :=
      geoStage_some E cache (cleanWS row.Retailer) (canonical_suppliers row.Suppliers)
        (cleanWS row.ContactName) (pyOrS (cleanWS row.Title) (cleanWS row.ContactTitle))
        (cleanWS row.Email) (cleanWS row.OfficePhone) (cleanWS row.CellPhone)
        [] (pyOrS cen.City (cleanWS row.City)) (pyOrS cen.State (normalize_state row.State))
        (pyOrS cen.Zip (normalize_zip row.Zip))
        (cityCenterLabel (pyOrS cen.City (cleanWS row.City))
          (pyOrS cen.State (normalize_state row.State)) (pyOrS cen.Zip (normalize_zip row.Zip)))
        (cen.LON, cen.LAT)
        (is_address_usable (cleanWS row.Address) (cleanWS row.City) (normalize_state row.State)
          (normalize_zip row.Zip) (cleanWS row.FullAddress))
    rw [hl]
    simp only [finalizeOutcome]
    rw [if_pos (by simpa using hv)]
    simp only [outcomeKind, outcomeCoord, outcomeProps]
    exact ⟨trivial, trivial, hA, hC, hS, hZ, hF⟩
  · intro hdrop
    have hload2 : (processRow E cache row).outcome = Outcome.droppedNoAddrNoPhone := by
      unfold processRow
      rw [if_neg (by simp [hb])]
      simp only []
      rw [if_neg (fun hcon => hcon.2 hp), if_pos ⟨ha, hp⟩]
      rcases hdrop with hd | hn
      · rw [if_pos hd]
      · by_cases hac2 : extract_area_code (cleanWS row.OfficePhone) (cleanWS row.CellPhone) = []
        · rw [if_pos hac2]
        · rw [if_neg hac2, hn]
    rw [hload2]
    rfl

theorem c7_area_code_witness :
    outcomeKind (processRow c7env [] c7row).outcome = 3 ∧
    outcomeCoord (processRow c7env [] c7row).outcome = some (c7cen.LON, c7cen.LAT) :=
  let h := (c7_area_code c7env [] c7row c7cen (by decide) (by decide) (by decide)).1
    (by decide) (by decide) (by decide)
  ⟨h.1, h.2.1⟩

/-- C7 counterexample: the loader keeps area-code-center rows with a blank
zip, and for such a center the contact is NOT assigned the center's (blank)
zip — its own zip is kept (`or` fallback), so "the contact is assigned that
center's city, state, zip" is false as stated. -/
theorem c7_counterexample :
    lookupL c7env.areaCenters
      (extract_area_code (cleanWS c7row.OfficePhone) (cleanWS c7row.CellPhone)) = some c7cen ∧
    c7cen.Zip = [] ∧
    outcomeKind (processRow c7env [] c7row).outcome = 3 ∧
    ¬ (outcomeProps (processRow c7env [] c7row).outcome).Zip = c7cen.Zip ∧
    (outcomeProps (processRow c7env [] c7row).outcome).Zip = normalize_zip c7row.Zip := by
  refine ⟨by decide, rfl, by decide, by decide, by decide⟩

-- ---------------------------------------------------------------------------
-- C9
-- ---------------------------------------------------------------------------

theorem gkQueryStep_after401 (net : List Nat → HttpReply) (tok : Bool) (st : GState)
    (query : List Nat) (h : st.saw401 = true) :
    (gkQueryStep net tok st query).1.saw401 = true ∧
    (gkQueryStep net tok st query).2.issuedNet = false := by
  unfold gkQueryStep
  split
  · exact ⟨h, rfl⟩
  · split
    · exact ⟨h, rfl⟩
    · simp [h]

theorem gkStep_after401 (net : List Nat → HttpReply) (tok : Bool)
    (lk : List (List Nat × GKCenter)) (st : GState) (row : GRow) (h : st.saw401 = true) :
    (gkStep net tok lk st row).1.saw401 = true ∧ (gkStep net tok lk st row).2.issuedNet = false := by
  unfold gkStep
  split
  · exact ⟨h, rfl⟩
  · split
    · exact ⟨h, rfl⟩
    · exact ⟨h, rfl⟩
    · exact gkQueryStep_after401 net tok st _ h

theorem gkHandleReply_401_sets (st : GState) (query : List Nat) (reply : HttpReply)
    (st2 : GState) (tr : GTrace) (hres : gkHandleReply st query reply = (st2, tr))
    (h401 : tr.http = 401) : st2.saw401 = true := by
  unfold gkHandleReply at hres
  split at hres
  · split at hres
    · injection hres with h1 h2
      subst h1
      subst h2
      have hx : (200 : Nat) = 401 := h401
      exact absurd hx (by decide)
    · injection hres with h1 h2
      subst h1
      subst h2
      have hx : (200 : Nat) = 401 := h401
      exact absurd hx (by decide)
  · split at hres
    · injection hres with h1 h2
      subst h1
      subst h2
      rfl
    · split at hres
      · injection hres with h1 h2
        subst h1
        subst h2
        have hx : (0 : Nat) = 401 := h401
        exact absurd hx (by decide)
      · injection hres with h1 h2
        subst h1
        subst h2
        rename_i hn401 hn0
        have hx : reply.status = 401 := h401
        exact absurd hx hn401

theorem gkQueryStep_401_sets (net : List Nat → HttpReply) (tok : Bool) (st : GState)
    (query : List Nat) (st2 : GState) (tr : GTrace)
    (hres : gkQueryStep net tok st query = (st2, tr)) (h401 : tr.http = 401) :
    st2.saw401 = true := by
  unfold gkQueryStep at hres
  split at hres
  · injection hres with h1 h2
    subst h1
    subst h2
    have hx : (0 : Nat) = 401 := h401
    exact absurd hx (by decide)
  · split at hres
    · injection hres with h1 h2
      subst h1
      subst h2
      have hx : (0 : Nat) = 401 := h401
      exact absurd hx (by decide)
    · split at hres
      · injection hres with h1 h2
        subst h1
        subst h2
        rename_i hsaw
        exact hsaw
      · split at hres
        · injection hres with h1 h2
          subst h1
          subst h2
          have hx : (0 : Nat) = 401 := h401
          exact absurd hx (by decide)
        · exact gkHandleReply_401_sets st query (net query) st2 tr hres h401

theorem gkStep_401_sets (net : List Nat → HttpReply) (tok : Bool)
    (lk : List (List Nat × GKCenter)) (st : GState) (row : GRow) (st2 : GState) (tr : GTrace)
    (hres : gkStep net tok lk st row = (st2, tr)) (h401 : tr.http = 401) :
    st2.saw401 = true := by
  unfold gkStep at hres
  split at hres
  · injection hres with h1 h2
    subst h1
    subst h2
    have hx : (0 : Nat) = 401 := h401
    exact absurd hx (by decide)
  · split at hres
    · injection hres with h1 h2
      subst h1
      subst h2
      have hx : (0 : Nat) = 401 := h401
      exact absurd hx (by decide)
    · injection hres with h1 h2
      subst h1
      subst h2
      have hx : (0 : Nat) = 401 := h401
      exact absurd hx (by decide)
    · exact gkQueryStep_401_sets net tok st _ st2 tr hres h401

theorem gkRun_after401 (net : List Nat → HttpReply) (tok : Bool)
    (lk : List (List Nat × GKCenter)) (rows : List GRow) (st : GState) (h : st.saw401 = true) :
    ∀ tr ∈ (gkRun net tok lk st rows).2, tr.issuedNet = false := by
  induction rows generalizing st with
  | nil =>
    intro tr htr
    simp [gkRun] at htr
  | cons r rs ih =>
    intro tr htr
    simp only [gkRun] at htr
    rcases List.mem_cons.mp htr with h1 | h1
    · rw [h1]
      exact (gkStep_after401 net tok lk st r h).2
    · exact ih (gkStep net tok lk st r).1 (gkStep_after401 net tok lk st r h).1 tr h1

theorem gkRun_401_abort (net : List Nat → HttpReply) (tok : Bool)
    (lk : List (List Nat × GKCenter)) (rows : List GRow) (st : GState) :
    ∀ (i j : Nat) (tri trj : GTrace), i < j →
      (gkRun net tok lk st rows).2.get? i = some tri → tri.http = 401 →
      (gkRun net tok lk st rows).2.get? j = some trj → trj.issuedNet = false := by
  induction rows generalizing st with
  | nil =>
    intro i j tri trj hij hi h401 hj
    simp [gkRun] at hi
  | cons r rs ih =>
    intro i j tri trj hij hi h401 hj
    simp only [gkRun] at hi hj
    cases i with
    | zero =>
      cases j with
      | zero => omega
      | succ j2 =>
        rw [List.get?_cons_zero, Option.some_inj] at hi
        have h401b : (gkStep net tok lk st r).2.http = 401 := by rw [hi]; exact h401
        have hsaw : (gkStep net tok lk st r).1.saw401 = true :=
          gkStep_401_sets net tok lk st r (gkStep net tok lk st r).1
            (gkStep net tok lk st r).2 rfl h401b
        rw [List.get?_cons_succ] at hj
        exact gkRun_after401 net tok lk rs (gkStep net tok lk st r).1 hsaw trj
          (List.get?_mem hj)
    | succ i2 =>
      cases j with
      | zero => omega
      | succ j2 =>
        rw [List.get?_cons_succ] at hi hj
        exact ih (gkStep net tok lk st r).1 i2 j2 tri trj (by omega) hi h401 hj

/-- C9: amended.  In the geocode_kingpin script the abort rule holds: once a
row's network request comes back HTTP 401, no later row of the run issues a
network request (the 401 gate is checked before the cache, so even
cache-resolvable rows are short-circuited and marked http_401), while rows
that never reach the geocode step are unaffected.  The
convert_to_geojson_kingpin script, however, has NO such gate — see the
counterexample. -/
theorem c9_gk_abort (net : List Nat → HttpReply) (tok : Bool)
    (lk : List (List Nat × GKCenter)) (rows : List GRow) (st : GState) :
    (st.saw401 = true → ∀ tr ∈ (gkRun net tok lk st rows).2, tr.issuedNet = false) ∧
    (∀ (i j : Nat) (tri trj : GTrace), i < j →
      (gkRun net tok lk st rows).2.get? i = some tri → tri.http = 401 →
      (gkRun net tok lk st rows).2.get? j = some trj → trj.issuedNet = false) :=
  ⟨fun h => gkRun_after401 net tok lk rows st h, gkRun_401_abort net tok lk rows st⟩

theorem c9_gk_abort_witness :
    c9gtr0.http = 401 ∧ c9gtr1.issuedNet = false :=
  ⟨by decide,
   (c9_gk_abort c9gnet true [] [c9grow, c9grow] c9ginit).2 0 1 c9gtr0 c9gtr1
     (by decide) (by decide) (by decide) (by decide)⟩

/-- C9 counterexample: in convert_to_geojson_kingpin, after the remote
service rejects a row's request with HTTP 401, the very next eligible row
still issues a network request — the claimed run-wide abort does not exist in
this script. -/
theorem c9_counterexample :
    (processRow c9env [] c9row).netStatuses = [401] ∧
    (processRow c9env (processRow c9env [] c9row).cache c9row).netCalls = 1 ∧
    (processRow c9env (processRow c9env [] c9row).cache c9row).netStatuses = [401] := by
  exact ⟨by decide, by decide, by decide⟩

/-- C5 counterexample: a contact whose retailer name normalizes to empty
(here "??") has a non-empty retailer+state bucket and a two-facility city
bucket in the index, no exact-address match — yet resolution yields tier TBD
(None), not RetailerState: the whole matching step is skipped because the
normalized retailer is empty, which the claim does not allow for. -/
theorem c5_counterexample :
    ¬ bucket c5fidx.byRk c5rk = [] ∧
    2 ≤ (bucket c5fidx.byCity c5ck).length ∧
    bucket c5fidx.byAddr c5ak = [] ∧
    (resolveMatch c5fidx c5rn c5an c5cn (str "IA") (str "50010") c5ak c5ck c5rk).2 =
      str "TBD" :=
  ⟨by decide, by decide, by decide, by decide⟩

-- ---------------------------------------------------------------------------
-- Whitespace lemmas for the idempotence analysis (C2)
-- ---------------------------------------------------------------------------

theorem isWS_iff (c : Nat) :
    isWS c = true ↔ c = 32 ∨ c = 9 ∨ c = 10 ∨ c = 13 ∨ c = 11 ∨ c = 12 := by
  simp [isWS]

theorem isWS_false_iff (c : Nat) :
    isWS c = false ↔ ¬(c = 32 ∨ c = 9 ∨ c = 10 ∨ c = 13 ∨ c = 11 ∨ c = 12) := by
  simp [isWS]

theorem isWS_32 : isWS 32 = true := by decide

theorem word_not_ws (c : Nat) (h : isWordChar c = true) : isWS c = false := by
  simp [isWordChar, isDigitN, isAlphaN] at h
  rw [isWS_false_iff]
  omega

theorem toLowerN_idem (c : Nat) : toLowerN (toLowerN c) = toLowerN c := by
  unfold toLowerN
  by_cases h : 65 ≤ c ∧ c ≤ 90
  · rw [if_pos h, if_neg (by omega : ¬(65 ≤ c + 32 ∧ c + 32 ≤ 90))]
  · rw [if_neg h, if_neg h]

theorem toUpperN_idem (c : Nat) : toUpperN (toUpperN c) = toUpperN c := by
  unfold toUpperN
  by_cases h : 97 ≤ c ∧ c ≤ 122
  · rw [if_pos h, if_neg (by omega : ¬(97 ≤ c - 32 ∧ c - 32 ≤ 122))]
  · rw [if_neg h, if_neg h]

theorem toUpperN_ws (c : Nat) : isWS (toUpperN c) = isWS c := by
  unfold toUpperN
  by_cases h : 97 ≤ c ∧ c ≤ 122
  · rw [if_pos h]
    rw [(by rw [isWS_false_iff]; omega : isWS (c - 32) = false)]
    rw [(by rw [isWS_false_iff]; omega : isWS c = false)]
  · rw [if_neg h]

theorem toLowerN_ws (c : Nat) : isWS (toLowerN c) = isWS c := by
  unfold toLowerN
  by_cases h : 65 ≤ c ∧ c ≤ 90
  · rw [if_pos h]
    rw [(by rw [isWS_false_iff]; omega : isWS (c + 32) = false)]
    rw [(by rw [isWS_false_iff]; omega : isWS c = false)]
  · rw [if_neg h]

theorem toLowerN_32 : toLowerN 32 = 32 := by decide

theorem wsToSp_32 : wsToSp 32 = 32 := by decide

theorem wsToSp_ws {c : Nat} (h : isWS c = true) : wsToSp c = 32 := by
  simp [wsToSp, h]

theorem wsToSp_not_ws {c : Nat} (h : isWS c = false) : wsToSp c = c := by
  simp [wsToSp, h]

theorem mapSelf {f : Nat → Nat} (l : List Nat) (h : ∀ c ∈ l, f c = c) : l.map f = l := by
  induction l with
  | nil => rfl
  | cons a t ih =>
    simp only [List.map_cons]
    rw [h a (List.mem_cons_self a t), ih (fun c hc => h c (List.mem_cons_of_mem a hc))]

theorem map_ext_fun {f g : List Nat → List Nat} (l : List (List Nat)) (h : ∀ u, f u = g u) :
    l.map f = l.map g := by
  induction l with
  | nil => rfl
  | cons a t ih => simp only [List.map_cons]; rw [h a, ih]

theorem memOfHead {α : Type} {l : List α} {c : α} (h : l.head? = some c) : c ∈ l := by
  cases l with
  | nil => simp at h
  | cons a t =>
    simp only [List.head?_cons, Option.some_inj] at h
    rw [← h]
    exact List.mem_cons_self a t

theorem memOfGetLast {α : Type} {l : List α} {c : α} (h : l.getLast? = some c) : c ∈ l := by
  have h2 : l.reverse.head? = some c := by rw [List.head?_reverse]; exact h
  exact List.mem_reverse.mp (memOfHead h2)

theorem getLastMap (f : Nat → Nat) (l : List Nat) : (l.map f).getLast? = l.getLast?.map f := by
  rw [← List.head?_reverse, ← List.map_reverse, List.head?_map, List.head?_reverse]

theorem dropWhile_head_not {p : Nat → Bool} : ∀ (l : List Nat) (c : Nat),
    (List.dropWhile p l).head? = some c → p c = false := by
  intro l
  induction l with
  | nil => intro c h; simp at h
  | cons a t ih =>
    intro c h
    rw [List.dropWhile_cons] at h
    by_cases hp : p a = true
    · rw [if_pos hp] at h
      exact ih c h
    · rw [if_neg hp] at h
      simp only [List.head?_cons, Option.some_inj] at h
      rw [← h]
      cases hq : p a with
      | false => rfl
      | true => exact absurd hq hp

theorem squeezeWS_ne_nil : ∀ l : List Nat, l ≠ [] → squeezeWS l ≠ [] := by
  intro l
  induction l using squeezeWS.induct with
  | case1 => intro h; exact absurd rfl h
  | case2 a => intro _; simp [squeezeWS]
  | case3 a b t h ih => intro _; rw [squeezeWS, if_pos h]; exact ih (by simp)
  | case4 a b t h ih => intro _; rw [squeezeWS, if_neg h]; simp

theorem mem_squeezeWS : ∀ (l : List Nat) (c : Nat), c ∈ squeezeWS l → c ∈ l := by
  intro l
  induction l using squeezeWS.induct with
  | case1 => intro c h; simp [squeezeWS] at h
  | case2 a => intro c h; simp [squeezeWS] at h; simp [h]
  | case3 a b t h ih =>
    intro c hc
    rw [squeezeWS, if_pos h] at hc
    exact List.mem_cons_of_mem a (ih c hc)
  | case4 a b t h ih =>
    intro c hc
    rw [squeezeWS, if_neg h] at hc
    rcases List.mem_cons.mp hc with h1 | h1
    · rw [h1]; exact List.mem_cons_self a (b :: t)
    · exact List.mem_cons_of_mem a (ih c h1)

theorem squeezeWS_head_not_ws (b : Nat) (t : List Nat) (h : isWS b = false) :
    (squeezeWS (b :: t)).head? = some b := by
  cases t with
  | nil => rfl
  | cons c t2 =>
    rw [squeezeWS, if_neg]
    · rfl
    · simp [h]

theorem squeezeWS_head (l : List Nat) (a : Nat) (h1 : l.head? = some a) (h2 : isWS a = false) :
    (squeezeWS l).head? = some a := by
  cases l with
  | nil => simp at h1
  | cons b t =>
    simp only [List.head?_cons, Option.some_inj] at h1
    rw [← h1] at h2 ⊢
    exact squeezeWS_head_not_ws b t h2

theorem squeezeWS_getLast : ∀ l : List Nat, (squeezeWS l).getLast? = l.getLast? := by
  intro l
  induction l using squeezeWS.induct with
  | case1 => rfl
  | case2 a => rfl
  | case3 a b t h ih =>
    rw [squeezeWS, if_pos h, ih, List.getLast?_cons_cons]
  | case4 a b t h ih =>
    rw [squeezeWS, if_neg h]
    have hne : squeezeWS (b :: t) ≠ [] := squeezeWS_ne_nil (b :: t) (by simp)
    cases hs : squeezeWS (b :: t) with
    | nil => exact absurd hs hne
    | cons x xs =>
      rw [List.getLast?_cons_cons, ← hs, ih, List.getLast?_cons_cons]

theorem chain_squeezeWS : ∀ l : List Nat, List.Chain' wsPair (squeezeWS l) := by
  intro l
  induction l using squeezeWS.induct with
  | case1 => simp [squeezeWS]
  | case2 a => simp [squeezeWS]
  | case3 a b t h ih => rw [squeezeWS, if_pos h]; exact ih
  | case4 a b t h ih =>
    rw [squeezeWS, if_neg h]
    rw [List.chain'_cons']
    refine ⟨?_, ih⟩
    intro y hy
    by_cases ha : isWS a = true
    · have hb : isWS b = false := by
        cases hb2 : isWS b with
        | false => rfl
        | true => exact absurd ⟨ha, hb2⟩ h
      rw [squeezeWS_head_not_ws b t hb] at hy
      simp only [Option.mem_def, Option.some_inj] at hy
      rw [← hy]
      exact Or.inr hb
    · refine Or.inl ?_
      cases hi : isWS a with
      | false => rfl
      | true => exact absurd hi ha

theorem squeezeWS_eq_self : ∀ l : List Nat, List.Chain' wsPair l → squeezeWS l = l := by
  intro l
  induction l using squeezeWS.induct with
  | case1 => intro _; rfl
  | case2 a => intro _; rfl
  | case3 a b t h ih =>
    intro hch
    rcases (List.chain'_cons.mp hch).1 with hw | hw
    · exact absurd h.1 (by simp [hw])
    · exact absurd h.2 (by simp [hw])
  | case4 a b t h ih =>
    intro hch
    rw [squeezeWS, if_neg h, ih (List.chain'_cons.mp hch).2]

theorem stripWS_head (l : List Nat) (c : Nat) (h : (stripWS l).head? = some c) :
    isWS c = false := by
  unfold stripWS at h
  rcases List.dropWhile_suffix (l := (stripLead l).reverse) (fun x => isWS x) with ⟨t, ht⟩
  have h2 := congrArg List.reverse ht
  rw [List.reverse_append, List.reverse_reverse] at h2
  cases hs : (List.dropWhile (fun x => isWS x) (stripLead l).reverse).reverse with
  | nil => rw [hs] at h; simp at h
  | cons x xs =>
    rw [hs] at h h2
    simp only [List.head?_cons, Option.some_inj] at h
    have hh : (stripLead l).head? = some x := by
      rw [← h2]
      rfl
    have hh2 : (List.dropWhile (fun c => isWS c) l).head? = some x := hh
    rw [← h]
    exact dropWhile_head_not l x hh2

theorem stripWS_getLast (l : List Nat) (c : Nat) (h : (stripWS l).getLast? = some c) :
    isWS c = false := by
  unfold stripWS at h
  rw [List.getLast?_reverse] at h
  exact dropWhile_head_not _ c h

theorem mem_stripWS (l : List Nat) (c : Nat) (h : c ∈ stripWS l) : c ∈ l := by
  unfold stripWS at h
  have h1 := List.mem_reverse.mp h
  have h2 : c ∈ (stripLead l).reverse := (List.dropWhile_sublist _).subset h1
  have h3 : c ∈ stripLead l := List.mem_reverse.mp h2
  exact (List.dropWhile_sublist _).subset h3

theorem cleanWS_chars (l : List Nat) (c : Nat) (h : c ∈ cleanWS l) :
    isWS c = true → c = 32 := by
  intro hws
  unfold cleanWS at h
  have h1 := mem_squeezeWS _ c h
  rcases List.mem_map.mp h1 with ⟨d, hd, hdc⟩
  by_cases hwd : isWS d = true
  · rw [← hdc, wsToSp_ws hwd]
  · have hfd : isWS d = false := by
      cases hx : isWS d with
      | false => rfl
      | true => exact absurd hx hwd
    rw [← hdc, wsToSp_not_ws hfd] at hws
    exact absurd hws (by simp [hfd])

theorem cleanWS_head (l : List Nat) (c : Nat) (h : (cleanWS l).head? = some c) :
    isWS c = false := by
  unfold cleanWS at h
  cases he : (stripWS l).head? with
  | none =>
    rw [List.head?_eq_none_iff] at he
    rw [he] at h
    simp [squeezeWS] at h
  | some e =>
    have hse : isWS e = false := stripWS_head l e he
    have hmap : ((stripWS l).map wsToSp).head? = some e := by
      rw [List.head?_map, he, Option.map_some', wsToSp_not_ws hse]
    rw [squeezeWS_head _ e hmap hse] at h
    injection h with h2
    rw [← h2]
    exact hse

theorem cleanWS_getLast (l : List Nat) (c : Nat) (h : (cleanWS l).getLast? = some c) :
    isWS c = false := by
  unfold cleanWS at h
  rw [squeezeWS_getLast, getLastMap] at h
  cases he : (stripWS l).getLast? with
  | none => rw [he] at h; simp at h
  | some e =>
    rw [he, Option.map_some'] at h
    injection h with h2
    rw [← h2, wsToSp_not_ws (stripWS_getLast l e he)]
    exact stripWS_getLast l e he

theorem cleanWS_chain (l : List Nat) : List.Chain' wsPair (cleanWS l) :=
  chain_squeezeWS _

theorem wsNormed_cleanWS (l : List Nat) : WSNormed (cleanWS l) :=
  ⟨fun c hc => cleanWS_chars l c hc, fun c => cleanWS_head l c,
   fun c => cleanWS_getLast l c, cleanWS_chain l⟩

theorem cleanWS_fixed (l : List Nat) (h : WSNormed l) : cleanWS l = l := by
  obtain ⟨hc, hh, hl, hch⟩ := h
  have h1 : stripLead l = l := by
    cases l with
    | nil => rfl
    | cons a t =>
      have ha := hh a rfl
      unfold stripLead
      rw [List.dropWhile_cons, if_neg (by simp [ha])]
  have h2 : stripWS l = l := by
    unfold stripWS
    rw [h1]
    cases hr : l.reverse with
    | nil =>
      have hl0 : l = [] := by
        have h3 := congrArg List.reverse hr
        rw [List.reverse_reverse, List.reverse_nil] at h3
        exact h3
      rw [hl0]
      rfl
    | cons x xs =>
      have hx : l.getLast? = some x := by
        rw [← List.head?_reverse, hr]
        rfl
      have hxw := hl x hx
      rw [List.dropWhile_cons, if_neg (by simp [hxw]), ← hr, List.reverse_reverse]
  have h3 : l.map wsToSp = l := by
    apply mapSelf
    intro c hcm
    by_cases hw : isWS c = true
    · rw [wsToSp_ws hw]
      exact (hc c hcm hw).symm
    · apply wsToSp_not_ws
      cases hx : isWS c with
      | false => rfl
      | true => exact absurd hx hw
  unfold cleanWS
  rw [h2, h3]
  exact squeezeWS_eq_self l hch

theorem cleanWS_idem (l : List Nat) : cleanWS (cleanWS l) = cleanWS l :=
  cleanWS_fixed (cleanWS l) (wsNormed_cleanWS l)

theorem mem_cleanWS (l : List Nat) (c : Nat) (h : c ∈ cleanWS l) : ∃ d ∈ l, c = wsToSp d := by
  unfold cleanWS at h
  have h1 := mem_squeezeWS _ c h
  rcases List.mem_map.mp h1 with ⟨d, hd, hdc⟩
  exact ⟨d, mem_stripWS l d hd, hdc.symm⟩

theorem cleanWS_cons_ws (a : Nat) (t : List Nat) (h : isWS a = true) :
    cleanWS (a :: t) = cleanWS t := by
  unfold cleanWS stripWS stripLead
  rw [List.dropWhile_cons, if_pos (by simp [h])]

theorem getLast_cons_ne_none {α : Type} (a : α) (t : List α) : (a :: t).getLast? ≠ none := by
  intro h
  have h1 := List.head?_reverse (a :: t)
  rw [h, List.head?_eq_none_iff] at h1
  have h2 := congrArg List.length h1
  simp at h2

theorem joinWith_cons_cons (sep p q : List Nat) (qs : List (List Nat)) :
    joinWith sep (p :: q :: qs) = p ++ sep ++ joinWith sep (q :: qs) := rfl

theorem mem_joinWith (sep : List Nat) : ∀ (ps : List (List Nat)) (c : Nat),
    c ∈ joinWith sep ps → c ∈ sep ∨ ∃ p ∈ ps, c ∈ p := by
  intro ps
  induction ps with
  | nil => intro c h; simp [joinWith] at h
  | cons p ps ih =>
    intro c h
    cases ps with
    | nil => exact Or.inr ⟨p, by simp, h⟩
    | cons q qs =>
      rw [joinWith_cons_cons] at h
      rcases List.mem_append.mp h with h1 | h1
      · rcases List.mem_append.mp h1 with h2 | h2
        · exact Or.inr ⟨p, by simp, h2⟩
        · exact Or.inl h2
      · rcases ih c h1 with h2 | ⟨r, hr, hcr⟩
        · exact Or.inl h2
        · exact Or.inr ⟨r, by simp [hr], hcr⟩

theorem joinWith_ne_nil (sep : List Nat) (p : List Nat) (ps : List (List Nat)) (hp : p ≠ []) :
    joinWith sep (p :: ps) ≠ [] := by
  cases ps with
  | nil => exact hp
  | cons q qs =>
    rw [joinWith_cons_cons]
    intro h
    rcases List.append_eq_nil.mp h with ⟨h1, _⟩
    rcases List.append_eq_nil.mp h1 with ⟨h2, _⟩
    exact hp h2

theorem joinWith_head (sep : List Nat) (p : List Nat) (ps : List (List Nat)) (hp : p ≠ []) :
    (joinWith sep (p :: ps)).head? = p.head? := by
  cases ps with
  | nil => rfl
  | cons q qs =>
    rw [joinWith_cons_cons]
    cases p with
    | nil => exact absurd rfl hp
    | cons a t => rfl

theorem joinWith_getLast (sep : List Nat) : ∀ ps : List (List Nat),
    (∀ p ∈ ps, p ≠ []) → ps ≠ [] →
    ∃ p ∈ ps, (joinWith sep ps).getLast? = p.getLast? := by
  intro ps
  induction ps with
  | nil => intro _ h; exact absurd rfl h
  | cons p ps ih =>
    intro hp _
    cases ps with
    | nil => exact ⟨p, by simp, rfl⟩
    | cons q qs =>
      rcases ih (fun r hr => hp r (List.mem_cons_of_mem p hr)) (by simp) with ⟨r, hr, he⟩
      refine ⟨r, List.mem_cons_of_mem p hr, ?_⟩
      rw [joinWith_cons_cons, List.append_assoc, List.getLast?_append, List.getLast?_append, he]
      cases hr0 : r with
      | nil => exact absurd hr0 (hp r (List.mem_cons_of_mem p hr))
      | cons a t =>
        cases hrl : (a :: t).getLast? with
        | none => exact absurd hrl (getLast_cons_ne_none a t)
        | some x => rfl

theorem chain_wsfree : ∀ l : List Nat, (∀ c ∈ l, isWS c = false) → List.Chain' wsPair l := by
  intro l
  induction l with
  | nil => intro _; exact List.chain'_nil
  | cons a t ih =>
    intro h
    rw [List.chain'_cons']
    exact ⟨fun y _ => Or.inl (h a (List.mem_cons_self a t)),
           ih (fun c hc => h c (List.mem_cons_of_mem a hc))⟩

theorem wsNormed_join32 : ∀ qs : List (List Nat), qs ≠ [] → (∀ p ∈ qs, p ≠ []) →
    (∀ p ∈ qs, ∀ c ∈ p, isWS c = false) → WSNormed (joinWith [32] qs) := by
  intro qs
  induction qs with
  | nil => intro h; exact absurd rfl h
  | cons p ps ih =>
    intro _ hne hwf
    refine ⟨?_, ?_, ?_, ?_⟩
    · intro c hc hwsc
      rcases mem_joinWith [32] (p :: ps) c hc with h1 | ⟨r, hr, hcr⟩
      · simpa using h1
      · exact absurd hwsc (by simp [hwf r hr c hcr])
    · intro c hhead
      rw [joinWith_head _ p ps (hne p (List.mem_cons_self p ps))] at hhead
      exact hwf p (List.mem_cons_self p ps) c (memOfHead hhead)
    · intro c hlast
      rcases joinWith_getLast [32] (p :: ps) hne (by simp) with ⟨r, hr, he⟩
      rw [he] at hlast
      exact hwf r hr c (memOfGetLast hlast)
    · cases ps with
      | nil => exact chain_wsfree p (hwf p (List.mem_cons_self p []))
      | cons q qs =>
        rw [joinWith_cons_cons, List.append_assoc, List.chain'_append]
        refine ⟨chain_wsfree p (hwf p (by simp)), ?_, ?_⟩
        · rw [List.singleton_append, List.chain'_cons']
          refine ⟨?_, ?_⟩
          · intro y hy
            rw [joinWith_head _ q qs (hne q (by simp))] at hy
            exact Or.inr (hwf q (by simp) y (memOfHead (Option.mem_def.mp hy)))
          · exact (ih (by simp) (fun r hr => hne r (by simp [hr]))
              (fun r hr => hwf r (by simp [hr]))).2.2.2
        · intro x hx y hy
          exact Or.inl (hwf p (by simp) x (memOfGetLast (Option.mem_def.mp hx)))

theorem wsNormed_joinComma : ∀ parts : List (List Nat), parts ≠ [] →
    (∀ q ∈ parts, q ≠ []) → (∀ q ∈ parts, WSNormed q) →
    WSNormed (joinWith (str ", ") parts) := by
  have hsep : str ", " = [44, 32] := by decide
  intro parts
  induction parts with
  | nil => intro h; exact absurd rfl h
  | cons p ps ih =>
    intro _ hne hn
    rw [hsep]
    refine ⟨?_, ?_, ?_, ?_⟩
    · intro c hc hwsc
      rcases mem_joinWith [44, 32] (p :: ps) c hc with h1 | ⟨r, hr, hcr⟩
      · simp at h1
        rcases h1 with h2 | h2
        · rw [h2] at hwsc
          exact absurd hwsc (by decide)
        · exact h2
      · exact (hn r hr).1 c hcr hwsc
    · intro c hhead
      rw [joinWith_head _ p ps (hne p (List.mem_cons_self p ps))] at hhead
      exact (hn p (List.mem_cons_self p ps)).2.1 c hhead
    · intro c hlast
      rcases joinWith_getLast [44, 32] (p :: ps) hne (by simp) with ⟨r, hr, he⟩
      rw [he] at hlast
      exact (hn r hr).2.2.1 c hlast
    · cases ps with
      | nil => exact (hn p (List.mem_cons_self p [])).2.2.2
      | cons q qs =>
        rw [joinWith_cons_cons, List.append_assoc, List.chain'_append]
        refine ⟨(hn p (by simp)).2.2.2, ?_, ?_⟩
        · show List.Chain' wsPair (44 :: 32 :: joinWith [44, 32] (q :: qs))
          rw [List.chain'_cons']
          refine ⟨fun y _ => Or.inl (by decide), ?_⟩
          rw [List.chain'_cons']
          refine ⟨?_, ?_⟩
          · intro y hy
            rw [joinWith_head _ q qs (hne q (by simp))] at hy
            exact Or.inr ((hn q (by simp)).2.1 y (Option.mem_def.mp hy))
          · have := ih (by simp) (fun r hr => hne r (by simp [hr]))
              (fun r hr => hn r (by simp [hr]))
            rw [hsep] at this
            exact this.2.2.2
        · intro x hx y hy
          exact Or.inl ((hn p (by simp)).2.2.1 x (Option.mem_def.mp hx))

theorem splitSp_ne_nil : ∀ l : List Nat, splitSp l ≠ [] := by
  intro l
  induction l with
  | nil => simp [splitSp]
  | cons c cs ih =>
    rw [splitSp]
    by_cases h : c = 32
    · rw [if_pos h]; simp
    · rw [if_neg h]
      cases hs : splitSp cs with
      | nil => simp
      | cons x xs => simp

theorem mem_splitSp : ∀ (l : List Nat) (p : List Nat), p ∈ splitSp l → ∀ c ∈ p, c ∈ l := by
  intro l
  induction l with
  | nil =>
    intro p hp c hc
    simp [splitSp] at hp
    rw [hp] at hc
    simp at hc
  | cons a cs ih =>
    intro p hp c hc
    rw [splitSp] at hp
    by_cases h : a = 32
    · rw [if_pos h] at hp
      rcases List.mem_cons.mp hp with h1 | h1
      · rw [h1] at hc; simp at hc
      · exact List.mem_cons_of_mem a (ih p h1 c hc)
    · rw [if_neg h] at hp
      cases hs : splitSp cs with
      | nil => exact absurd hs (splitSp_ne_nil cs)
      | cons x xs =>
        rw [hs] at hp
        rcases List.mem_cons.mp hp with h1 | h1
        · rw [h1] at hc
          rcases List.mem_cons.mp hc with h2 | h2
          · rw [h2]; exact List.mem_cons_self a cs
          · exact List.mem_cons_of_mem a
              (ih x (by rw [hs]; exact List.mem_cons_self x xs) c h2)
        · exact List.mem_cons_of_mem a
            (ih p (by rw [hs]; exact List.mem_cons_of_mem x h1) c hc)

theorem splitSp_no_sp : ∀ (l : List Nat) (p : List Nat), p ∈ splitSp l → ∀ c ∈ p, ¬ c = 32 := by
  intro l
  induction l with
  | nil =>
    intro p hp c hc
    simp [splitSp] at hp
    rw [hp] at hc
    simp at hc
  | cons a cs ih =>
    intro p hp c hc
    rw [splitSp] at hp
    by_cases h : a = 32
    · rw [if_pos h] at hp
      rcases List.mem_cons.mp hp with h1 | h1
      · rw [h1] at hc; simp at hc
      · exact ih p h1 c hc
    · rw [if_neg h] at hp
      cases hs : splitSp cs with
      | nil => exact absurd hs (splitSp_ne_nil cs)
      | cons x xs =>
        rw [hs] at hp
        rcases List.mem_cons.mp hp with h1 | h1
        · rw [h1] at hc
          rcases List.mem_cons.mp hc with h2 | h2
          · rw [h2]; exact h
          · exact ih x (by rw [hs]; exact List.mem_cons_self x xs) c h2
        · exact ih p (by rw [hs]; exact List.mem_cons_of_mem x h1) c hc

theorem joinWith32_splitSp : ∀ l : List Nat, joinWith [32] (splitSp l) = l := by
  intro l
  induction l with
  | nil => rfl
  | cons a cs ih =>
    rw [splitSp]
    by_cases h : a = 32
    · rw [if_pos h]
      cases hs : splitSp cs with
      | nil => exact absurd hs (splitSp_ne_nil cs)
      | cons x xs =>
        rw [joinWith_cons_cons, List.nil_append, List.singleton_append, ← hs, ih, h]
    · rw [if_neg h]
      cases hs : splitSp cs with
      | nil => exact absurd hs (splitSp_ne_nil cs)
      | cons x xs =>
        cases xs with
        | nil =>
          have h2 : joinWith [32] (splitSp cs) = cs := ih
          rw [hs] at h2
          show a :: x = a :: cs
          rw [← h2]
          rfl
        | cons y ys =>
          have h2 : joinWith [32] (splitSp cs) = cs := ih
          rw [hs, joinWith_cons_cons] at h2
          show (a :: x) ++ [32] ++ joinWith [32] (y :: ys) = a :: cs
          rw [← h2]
          rfl

theorem splitSp_of_no_sp : ∀ p : List Nat, (∀ c ∈ p, ¬ c = 32) → splitSp p = [p] := by
  intro p
  induction p with
  | nil => intro _; rfl
  | cons a t ih =>
    intro h
    rw [splitSp, if_neg (h a (List.mem_cons_self a t))]
    rw [ih (fun c hc => h c (List.mem_cons_of_mem a hc))]

theorem splitSp_append_sep : ∀ (p : List Nat) (r : List Nat), (∀ c ∈ p, ¬ c = 32) →
    splitSp (p ++ 32 :: r) = p :: splitSp r := by
  intro p
  induction p with
  | nil =>
    intro r _
    show splitSp (32 :: r) = [] :: splitSp r
    rw [splitSp, if_pos rfl]
  | cons a t ih =>
    intro r h
    show splitSp (a :: (t ++ 32 :: r)) = (a :: t) :: splitSp r
    rw [splitSp, if_neg (h a (List.mem_cons_self a t))]
    rw [ih r (fun c hc => h c (List.mem_cons_of_mem a hc))]

theorem splitSp_join : ∀ ps : List (List Nat), ps ≠ [] →
    (∀ p ∈ ps, ∀ c ∈ p, ¬ c = 32) → splitSp (joinWith [32] ps) = ps := by
  intro ps
  induction ps with
  | nil => intro h; exact absurd rfl h
  | cons p qs ih =>
    intro _ h
    cases qs with
    | nil => exact splitSp_of_no_sp p (h p (List.mem_cons_self p []))
    | cons q rs =>
      rw [joinWith_cons_cons, List.append_assoc, List.singleton_append]
      rw [splitSp_append_sep p _ (h p (by simp))]
      rw [ih (by simp) (fun r hr => h r (by simp [hr]))]

theorem splitSp_no_nil_aux : ∀ (n : Nat) (y : List Nat), y.length ≤ n → y ≠ [] →
    (∀ c, y.head? = some c → isWS c = false) →
    (∀ c, y.getLast? = some c → isWS c = false) →
    List.Chain' wsPair y → ¬ [] ∈ splitSp y := by
  intro n
  induction n with
  | zero =>
    intro y hlen hne _ _ _
    cases y with
    | nil => exact absurd rfl hne
    | cons a t => simp at hlen
  | succ n ih =>
    intro y hlen hne hhead hlast hch
    have hdeco := List.takeWhile_append_dropWhile (fun c => (¬ c = 32 : Bool)) y
    have ht1chars : ∀ c ∈ y.takeWhile (fun c => (¬ c = 32 : Bool)), ¬ c = 32 := by
      intro c hc
      have h2 := List.mem_takeWhile_imp hc
      simp at h2
      exact h2
    have ht1ne : y.takeWhile (fun c => (¬ c = 32 : Bool)) ≠ [] := by
      cases y with
      | nil => exact absurd rfl hne
      | cons a t =>
        have ha := hhead a rfl
        have ha32 : ¬ a = 32 := by
          intro h32
          rw [h32, isWS_32] at ha
          exact absurd ha (by simp)
        rw [List.takeWhile_cons, if_pos (by simp [ha32])]
        simp
    cases hrest : y.dropWhile (fun c => (¬ c = 32 : Bool)) with
    | nil =>
      rw [hrest, List.append_nil] at hdeco
      have hyfree : ∀ c ∈ y, ¬ c = 32 := by
        intro c hc
        rw [← hdeco] at hc
        exact ht1chars c hc
      rw [splitSp_of_no_sp y hyfree]
      intro hmem
      rcases List.mem_cons.mp hmem with h1 | h1
      · exact hne h1.symm
      · simp at h1
    | cons w y2 =>
      have hw : w = 32 := by
        have hpw := dropWhile_head_not y w (by rw [hrest]; rfl)
        simp at hpw
        exact hpw
      rw [hrest, hw] at hdeco
      -- hdeco : takeWhile ++ 32 :: y2 = y
      have hy2ne : y2 ≠ [] := by
        intro h2
        rw [h2] at hdeco
        have hgl : y.getLast? = some 32 := by
          rw [← hdeco, List.getLast?_append]
          rfl
        have := hlast 32 hgl
        rw [isWS_32] at this
        exact absurd this (by simp)
      have hchtail : List.Chain' wsPair (32 :: y2) := by
        rw [← hdeco] at hch
        exact (List.chain'_append.mp hch).2.1
      have hhead2 : ∀ c, y2.head? = some c → isWS c = false := by
        intro c hc
        have hc2 := (List.chain'_cons'.mp hchtail).1 c (Option.mem_def.mpr hc)
        rcases hc2 with h1 | h1
        · rw [isWS_32] at h1
          exact absurd h1 (by simp)
        · exact h1
      have hlast2 : ∀ c, y2.getLast? = some c → isWS c = false := by
        intro c hc
        apply hlast
        rw [← hdeco, List.getLast?_append]
        cases y2 with
        | nil => exact absurd rfl hy2ne
        | cons b t2 =>
          rw [List.getLast?_cons_cons, hc]
          rfl
      have hlen2 : y2.length ≤ n := by
        have h3 := congrArg List.length hdeco
        rw [List.length_append] at h3
        simp at h3
        omega
      have hih := ih y2 hlen2 hy2ne hhead2 hlast2 (List.chain'_cons'.mp hchtail).2
      rw [← hdeco, splitSp_append_sep _ _ ht1chars]
      intro hmem
      rcases List.mem_cons.mp hmem with h1 | h1
      · exact ht1ne h1.symm
      · exact hih h1

theorem splitSp_no_nil (y : List Nat) (hne : y ≠ []) (h : WSNormed y) : ¬ [] ∈ splitSp y :=
  splitSp_no_nil_aux y.length y (Nat.le_refl _) hne h.2.1 h.2.2.1 h.2.2.2

theorem splitSep_ne_nil : ∀ l : List Nat, splitSep l ≠ [] := by
  intro l
  induction l with
  | nil => simp [splitSep]
  | cons c cs ih =>
    rw [splitSep]
    by_cases h : c = 44 ∨ c = 59
    · rw [if_pos h]; simp
    · rw [if_neg h]
      cases hs : splitSep cs with
      | nil => simp
      | cons x xs => simp

theorem splitSep_no_sep : ∀ (l : List Nat) (p : List Nat), p ∈ splitSep l →
    ∀ c ∈ p, ¬(c = 44 ∨ c = 59) := by
  intro l
  induction l with
  | nil =>
    intro p hp c hc
    simp [splitSep] at hp
    rw [hp] at hc
    simp at hc
  | cons a cs ih =>
    intro p hp c hc
    rw [splitSep] at hp
    by_cases h : a = 44 ∨ a = 59
    · rw [if_pos h] at hp
      rcases List.mem_cons.mp hp with h1 | h1
      · rw [h1] at hc; simp at hc
      · exact ih p h1 c hc
    · rw [if_neg h] at hp
      cases hs : splitSep cs with
      | nil => exact absurd hs (splitSep_ne_nil cs)
      | cons x xs =>
        rw [hs] at hp
        rcases List.mem_cons.mp hp with h1 | h1
        · rw [h1] at hc
          rcases List.mem_cons.mp hc with h2 | h2
          · rw [h2]; exact h
          · exact ih x (by rw [hs]; exact List.mem_cons_self x xs) c h2
        · exact ih p (by rw [hs]; exact List.mem_cons_of_mem x h1) c hc

theorem splitSep_of_no_sep : ∀ p : List Nat, (∀ c ∈ p, ¬(c = 44 ∨ c = 59)) →
    splitSep p = [p] := by
  intro p
  induction p with
  | nil => intro _; rfl
  | cons a t ih =>
    intro h
    rw [splitSep, if_neg (h a (List.mem_cons_self a t))]
    rw [ih (fun c hc => h c (List.mem_cons_of_mem a hc))]

theorem splitSep_append_sep : ∀ (p : List Nat) (r : List Nat),
    (∀ c ∈ p, ¬(c = 44 ∨ c = 59)) →
    splitSep (p ++ 44 :: r) = p :: splitSep r := by
  intro p
  induction p with
  | nil =>
    intro r _
    show splitSep (44 :: r) = [] :: splitSep r
    rw [splitSep, if_pos (Or.inl rfl)]
  | cons a t ih =>
    intro r h
    show splitSep (a :: (t ++ 44 :: r)) = (a :: t) :: splitSep r
    rw [splitSep, if_neg (h a (List.mem_cons_self a t))]
    rw [ih r (fun c hc => h c (List.mem_cons_of_mem a hc))]

theorem splitSep_joinComma : ∀ (ps : List (List Nat)) (p : List Nat),
    (∀ q ∈ p :: ps, ∀ c ∈ q, ¬(c = 44 ∨ c = 59)) →
    splitSep (joinWith [44, 32] (p :: ps)) = p :: ps.map (fun q => 32 :: q) := by
  intro ps
  induction ps with
  | nil =>
    intro p h
    rw [List.map_nil]
    exact splitSep_of_no_sep p (h p (List.mem_cons_self p []))
  | cons q qs ih =>
    intro p h
    rw [joinWith_cons_cons, List.append_assoc]
    show splitSep (p ++ 44 :: 32 :: joinWith [44, 32] (q :: qs)) =
      p :: (q :: qs).map (fun r => 32 :: r)
    rw [splitSep_append_sep p _ (h p (List.mem_cons_self p (q :: qs)))]
    rw [List.map_cons]
    congr 1
    rw [splitSep, if_neg (by simp)]
    rw [ih q (fun r hr c hc => h r (List.mem_cons_of_mem p hr) c hc)]

theorem lookupL_mem {α : Type} : ∀ (m : List (List Nat × α)) (k : List Nat) (v : α),
    lookupL m k = some v → (k, v) ∈ m := by
  intro m
  induction m with
  | nil => intro k v h; simp [lookupL] at h
  | cons kv t ih =>
    intro k v h
    obtain ⟨k2, v2⟩ := kv
    rw [lookupL] at h
    by_cases hk : k2 = k
    · rw [if_pos hk] at h
      injection h with h2
      rw [← hk, ← h2]
      exact List.mem_cons_self _ _
    · rw [if_neg hk] at h
      exact List.mem_cons_of_mem _ (ih k v h)

theorem mapTok_none {m : List (List Nat × List Nat)} {t : List Nat}
    (h : lookupL m t = none) : mapTok m t = t := by
  unfold mapTok
  rw [h]

theorem mapTok_some {m : List (List Nat × List Nat)} {t v : List Nat}
    (h : lookupL m t = some v) : mapTok m t = v := by
  unfold mapTok
  rw [h]

theorem mapTok_good (m : List (List Nat × List Nat)) (hm : ∀ p ∈ m, goodTok p.2 = true)
    (t : List Nat) (ht : goodTok t = true) : goodTok (mapTok m t) = true := by
  unfold mapTok
  cases hl : lookupL m t with
  | none => exact ht
  | some v => exact hm (t, v) (lookupL_mem m t v hl)

theorem ord_values_good : ∀ p ∈ ORDINAL_WORDS, goodTok p.2 = true := by
  have hall : ORDINAL_WORDS.all (fun p => goodTok p.2) = true := by decide
  intro p hp
  exact List.all_eq_true.mp hall p hp

theorem tok_values_good : ∀ p ∈ TOKEN_MAP, goodTok p.2 = true := by
  have hall : TOKEN_MAP.all (fun p => goodTok p.2) = true := by decide
  intro p hp
  exact List.all_eq_true.mp hall p hp

theorem goodTok_spec (t : List Nat) (h : goodTok t = true) :
    ¬ t = [] ∧ ∀ c ∈ t, isWordChar c = true ∧ toLowerN c = c := by
  unfold goodTok at h
  rw [Bool.and_eq_true] at h
  obtain ⟨h1, h2⟩ := h
  refine ⟨of_decide_eq_true h1, ?_⟩
  intro c hc
  have h3 := List.all_eq_true.mp h2 c hc
  rw [Bool.and_eq_true] at h3
  exact ⟨h3.1, of_decide_eq_true h3.2⟩

theorem goodTok_intro (t : List Nat) (h1 : ¬ t = [])
    (h2 : ∀ c ∈ t, isWordChar c = true ∧ toLowerN c = c) : goodTok t = true := by
  unfold goodTok
  rw [Bool.and_eq_true]
  refine ⟨decide_eq_true h1, ?_⟩
  rw [List.all_eq_true]
  intro c hc
  rw [Bool.and_eq_true]
  exact ⟨(h2 c hc).1, decide_eq_true (h2 c hc).2⟩

theorem mapTok_idem (u : List Nat) :
    mapTok TOKEN_MAP (mapTok ORDINAL_WORDS (mapTok TOKEN_MAP (mapTok ORDINAL_WORDS u))) =
      mapTok TOKEN_MAP (mapTok ORDINAL_WORDS u) := by
  have hofresh : ORDINAL_WORDS.all (fun p =>
      (lookupL ORDINAL_WORDS p.2).isNone && (lookupL TOKEN_MAP p.2).isNone) = true := by
    decide
  have htfresh : TOKEN_MAP.all (fun p =>
      (lookupL ORDINAL_WORDS p.2).isNone && (lookupL TOKEN_MAP p.2).isNone) = true := by
    decide
  cases ho : lookupL ORDINAL_WORDS u with
  | some v =>
    have hv := List.all_eq_true.mp hofresh (u, v) (lookupL_mem _ u v ho)
    rw [Bool.and_eq_true, Option.isNone_iff_eq_none, Option.isNone_iff_eq_none] at hv
    rw [mapTok_some ho, mapTok_none hv.2, mapTok_none hv.1, mapTok_none hv.2]
  | none =>
    rw [mapTok_none ho]
    cases ht : lookupL TOKEN_MAP u with
    | some w =>
      have hw := List.all_eq_true.mp htfresh (u, w) (lookupL_mem _ u w ht)
      rw [Bool.and_eq_true, Option.isNone_iff_eq_none, Option.isNone_iff_eq_none] at hw
      rw [mapTok_some ht, mapTok_none hw.1, mapTok_none hw.2]
    | none =>
      rw [mapTok_none ht, mapTok_none ho, mapTok_none ht]

theorem map_fun_congr {f g : Nat → Nat} (l : List Nat) (h : ∀ c, f c = g c) :
    l.map f = l.map g := by
  induction l with
  | nil => rfl
  | cons a t ih => simp only [List.map_cons]; rw [h a, ih]

theorem cityStage_chars (s : List Nat) (c : Nat)
    (h : c ∈ cleanWS (punctToSp (lowerL (cleanWS s)))) :
    c = 32 ∨ (isWordChar c = true ∧ toLowerN c = c) := by
  rcases mem_cleanWS _ c h with ⟨d, hd, hcd⟩
  unfold punctToSp at hd
  rcases List.mem_map.mp hd with ⟨e, he, hed⟩
  unfold lowerL at he
  rcases List.mem_map.mp he with ⟨f, hf, hfe⟩
  by_cases hcase : isWordChar e = true ∨ isWS e = true
  · rw [if_pos hcase] at hed
    rcases hcase with hw | hw
    · right
      have hde : d = e := hed.symm
      have hnws : isWS d = false := by rw [hde]; exact word_not_ws e hw
      rw [hcd, wsToSp_not_ws hnws, hde]
      refine ⟨hw, ?_⟩
      rw [← hfe, toLowerN_idem]
    · left
      rw [hcd, ← hed, wsToSp_ws hw]
  · rw [if_neg hcase] at hed
    left
    rw [hcd, ← hed, wsToSp_32]

theorem cityStage_fix (y : List Nat)
    (hy : ∀ c ∈ y, c = 32 ∨ (isWordChar c = true ∧ toLowerN c = c)) :
    lowerL y = y ∧ punctToSp y = y := by
  constructor
  · apply mapSelf
    intro c hc
    rcases hy c hc with h | h
    · rw [h]; exact toLowerN_32
    · exact h.2
  · apply mapSelf
    intro c hc
    show (if isWordChar c = true ∨ isWS c = true then c else 32) = c
    rcases hy c hc with h | h
    · rw [h, if_pos (Or.inr isWS_32)]
    · rw [if_pos (Or.inl h.1)]

theorem normalize_city_idem (s : List Nat) :
    normalize_city (normalize_city s) = normalize_city s := by
  unfold normalize_city
  have hfix := cityStage_fix (cleanWS (punctToSp (lowerL (cleanWS s))))
    (fun c hc => cityStage_chars s c hc)
  rw [cleanWS_idem, hfix.1, hfix.2, cleanWS_idem]

theorem normalize_state_idem (s : List Nat) :
    normalize_state (normalize_state s) = normalize_state s := by
  unfold normalize_state
  have hnorm : WSNormed (upperL (cleanWS s)) := by
    obtain ⟨h1, h2, h3, h4⟩ := wsNormed_cleanWS s
    refine ⟨?_, ?_, ?_, ?_⟩
    · intro c hc hws
      unfold upperL at hc
      rcases List.mem_map.mp hc with ⟨d, hd, hdc⟩
      by_cases hi : 97 ≤ d ∧ d ≤ 122
      · rw [← hdc, toUpperN_ws] at hws
        have := h1 d hd hws
        omega
      · have hdd : toUpperN d = d := by unfold toUpperN; rw [if_neg hi]
        rw [← hdc, hdd] at hws ⊢
        exact h1 d hd hws
    · intro c hc
      unfold upperL at hc
      rw [List.head?_map] at hc
      cases hh : (cleanWS s).head? with
      | none => rw [hh] at hc; simp at hc
      | some d =>
        rw [hh, Option.map_some'] at hc
        injection hc with hc2
        rw [← hc2, toUpperN_ws]
        exact h2 d hh
    · intro c hc
      unfold upperL at hc
      rw [getLastMap] at hc
      cases hh : (cleanWS s).getLast? with
      | none => rw [hh] at hc; simp at hc
      | some d =>
        rw [hh, Option.map_some'] at hc
        injection hc with hc2
        rw [← hc2, toUpperN_ws]
        exact h3 d hh
    · unfold upperL
      rw [List.chain'_map]
      apply List.Chain'.imp ?_ h4
      intro a b hab
      rcases hab with h | h
      · exact Or.inl (by rw [toUpperN_ws]; exact h)
      · exact Or.inr (by rw [toUpperN_ws]; exact h)
  rw [cleanWS_fixed _ hnorm]
  unfold upperL
  rw [List.map_map]
  exact map_fun_congr _ (fun c => toUpperN_idem c)

theorem normalize_zip_idem (s : List Nat) :
    normalize_zip (normalize_zip s) = normalize_zip s := cleanWS_idem s

theorem mapSelfL {α : Type} (l : List α) (f : α → α) (h : ∀ x ∈ l, f x = x) : l.map f = l := by
  induction l with
  | nil => rfl
  | cons a t ih =>
    simp only [List.map_cons]
    rw [h a (List.mem_cons_self a t), ih (fun x hx => h x (List.mem_cons_of_mem a hx))]

theorem normalize_address_fix (T : List (List Nat)) (hTne : T ≠ [])
    (hTgood : ∀ p ∈ T, goodTok p = true)
    (hTfix : ∀ t ∈ T, mapTok TOKEN_MAP (mapTok ORDINAL_WORDS t) = t) :
    normalize_address (cleanWS (joinWith [32] T)) = cleanWS (joinWith [32] T) := by
  have hTn : ∀ p ∈ T, ¬ p = [] := fun p hp => (goodTok_spec p (hTgood p hp)).1
  have hTw : ∀ p ∈ T, ∀ c ∈ p, isWS c = false := fun p hp c hc =>
    word_not_ws c ((goodTok_spec p (hTgood p hp)).2 c hc).1
  have hT32 : ∀ p ∈ T, ∀ c ∈ p, ¬ c = 32 := by
    intro p hp c hc h32
    have h2 := hTw p hp c hc
    rw [h32, isWS_32] at h2
    exact absurd h2 (by simp)
  have hzn : WSNormed (joinWith [32] T) := wsNormed_join32 T hTne hTn hTw
  have hzfix : cleanWS (joinWith [32] T) = joinWith [32] T := cleanWS_fixed _ hzn
  rw [hzfix]
  have hzchars : ∀ c ∈ joinWith [32] T, c = 32 ∨ (isWordChar c = true ∧ toLowerN c = c) := by
    intro c hc
    rcases mem_joinWith [32] T c hc with h1 | ⟨p, hp, hcp⟩
    · left; simpa using h1
    · right; exact (goodTok_spec p (hTgood p hp)).2 c hcp
  have hfix2 := cityStage_fix (joinWith [32] T) hzchars
  show cleanWS (joinWith [32] (((splitSp (cleanWS (punctToSp (lowerL (cleanWS
    (joinWith [32] T)))))).map (mapTok ORDINAL_WORDS)).map (mapTok TOKEN_MAP))) =
    joinWith [32] T
  rw [hzfix, hfix2.1, hfix2.2, hzfix, splitSp_join T hTne hT32, List.map_map]
  rw [mapSelfL T (mapTok TOKEN_MAP ∘ mapTok ORDINAL_WORDS) (fun t ht => hTfix t ht)]
  exact hzfix

theorem normalize_address_idem (raw : List Nat) :
    normalize_address (normalize_address raw) = normalize_address raw := by
  by_cases hy : cleanWS (punctToSp (lowerL (cleanWS raw))) = []
  · have h1 : normalize_address raw = [] := by
      show cleanWS (joinWith [32] (((splitSp (cleanWS (punctToSp (lowerL (cleanWS raw))))).map
        (mapTok ORDINAL_WORDS)).map (mapTok TOKEN_MAP))) = []
      rw [hy]
      decide
    rw [h1]
    decide
  · have hmain := normalize_address_fix
      (((splitSp (cleanWS (punctToSp (lowerL (cleanWS raw))))).map
        (mapTok ORDINAL_WORDS)).map (mapTok TOKEN_MAP))
      (by
        intro h0
        rw [List.map_eq_nil_iff, List.map_eq_nil_iff] at h0
        exact splitSp_ne_nil _ h0)
      (by
        intro p hp
        rcases List.mem_map.mp hp with ⟨t1, ht1, he1⟩
        rcases List.mem_map.mp ht1 with ⟨t0, ht0, he0⟩
        rw [← he1, ← he0]
        have hp0 : goodTok t0 = true := by
          apply goodTok_intro
          · intro h0
            rw [h0] at ht0
            exact splitSp_no_nil _ hy (wsNormed_cleanWS _) ht0
          · intro c hc
            rcases cityStage_chars raw c (mem_splitSp _ t0 ht0 c hc) with h | h
            · exact absurd h (splitSp_no_sp _ t0 ht0 c hc)
            · exact h
        exact mapTok_good _ tok_values_good _ (mapTok_good _ ord_values_good _ hp0))
      (by
        intro t ht
        rcases List.mem_map.mp ht with ⟨t1, ht1, he1⟩
        rcases List.mem_map.mp ht1 with ⟨t0, ht0, he0⟩
        rw [← he1, ← he0]
        exact mapTok_idem t0)
    exact hmain

theorem sup_tail_restore : ∀ (qs : List (List Nat)),
    (∀ q ∈ qs, q ≠ []) → (∀ q ∈ qs, WSNormed q) →
    (qs.map (fun q => 32 :: q)).filterMap (fun r =>
      if cleanWS r = [] then none else some (cleanWS r)) = qs := by
  intro qs
  induction qs with
  | nil => intro _ _; rfl
  | cons q qs ih =>
    intro hn hw
    rw [List.map_cons, List.filterMap_cons]
    have hq : cleanWS (32 :: q) = q := by
      rw [cleanWS_cons_ws 32 q isWS_32]
      exact cleanWS_fixed q (hw q (List.mem_cons_self q qs))
    rw [hq, if_neg (hn q (List.mem_cons_self q qs))]
    show q :: (qs.map (fun r => 32 :: r)).filterMap (fun r =>
      if cleanWS r = [] then none else some (cleanWS r)) = q :: qs
    rw [ih (fun r hr => hn r (List.mem_cons_of_mem q hr))
        (fun r hr => hw r (List.mem_cons_of_mem q hr))]

theorem canonical_suppliers_fix (parts : List (List Nat)) (hne : parts ≠ [])
    (hn : ∀ q ∈ parts, q ≠ [])
    (hw : ∀ q ∈ parts, WSNormed q)
    (hs : ∀ q ∈ parts, ∀ c ∈ q, ¬(c = 44 ∨ c = 59)) :
    canonical_suppliers (joinWith (str ", ") parts) = joinWith (str ", ") parts := by
  have hsep : str ", " = [44, 32] := by decide
  rw [hsep]
  have hzn : WSNormed (joinWith [44, 32] parts) := by
    have h0 := wsNormed_joinComma parts hne hn hw
    rwa [hsep] at h0
  have hzfix : cleanWS (joinWith [44, 32] parts) = joinWith [44, 32] parts :=
    cleanWS_fixed _ hzn
  have hzne : joinWith [44, 32] parts ≠ [] := by
    cases parts with
    | nil => exact absurd rfl hne
    | cons p ps => exact joinWith_ne_nil _ p ps (hn p (List.mem_cons_self p ps))
  unfold canonical_suppliers
  simp only []
  rw [hzfix, if_neg hzne]
  cases parts with
  | nil => exact absurd rfl hne
  | cons p ps =>
    rw [splitSep_joinComma ps p (fun q hq => hs q hq)]
    rw [List.filterMap_cons]
    have hfp : cleanWS p = p := cleanWS_fixed p (hw p (List.mem_cons_self p ps))
    rw [hfp, if_neg (hn p (List.mem_cons_self p ps))]
    show joinWith (str ", ") (p :: (ps.map (fun q => 32 :: q)).filterMap (fun r =>
      if cleanWS r = [] then none else some (cleanWS r))) = joinWith [44, 32] (p :: ps)
    rw [sup_tail_restore ps (fun r hr => hn r (List.mem_cons_of_mem p hr))
        (fun r hr => hw r (List.mem_cons_of_mem p hr))]
    rw [hsep]

theorem canonical_suppliers_idem (raw : List Nat) :
    canonical_suppliers (canonical_suppliers raw) = canonical_suppliers raw := by
  by_cases h0 : cleanWS raw = []
  · have h1 : canonical_suppliers raw = [] := by
      unfold canonical_suppliers
      simp only []
      rw [if_pos h0]
    rw [h1]
    decide
  · have hform : canonical_suppliers raw = joinWith (str ", ")
        ((splitSep (cleanWS raw)).filterMap (fun p =>
          if cleanWS p = [] then none else some (cleanWS p))) := by
      unfold canonical_suppliers
      simp only []
      rw [if_neg h0]
    by_cases hparts : (splitSep (cleanWS raw)).filterMap (fun p =>
        if cleanWS p = [] then none else some (cleanWS p)) = []
    · rw [hform, hparts]
      decide
    · rw [hform]
      apply canonical_suppliers_fix _ hparts
      · intro q hq
        rcases List.mem_filterMap.mp hq with ⟨p, hp, hf⟩
        by_cases hcp : cleanWS p = []
        · rw [if_pos hcp] at hf; exact absurd hf (by simp)
        · rw [if_neg hcp] at hf
          injection hf with hf2
          rw [← hf2]
          exact hcp
      · intro q hq
        rcases List.mem_filterMap.mp hq with ⟨p, hp, hf⟩
        by_cases hcp : cleanWS p = []
        · rw [if_pos hcp] at hf; exact absurd hf (by simp)
        · rw [if_neg hcp] at hf
          injection hf with hf2
          rw [← hf2]
          exact wsNormed_cleanWS p
      · intro q hq c hc
        rcases List.mem_filterMap.mp hq with ⟨p, hp, hf⟩
        by_cases hcp : cleanWS p = []
        · rw [if_pos hcp] at hf; exact absurd hf (by simp)
        · rw [if_neg hcp] at hf
          injection hf with hf2
          rw [← hf2] at hc
          rcases mem_cleanWS p c hc with ⟨d, hd, hcd⟩
          have hdn := splitSep_no_sep (cleanWS raw) p hp d hd
          intro hor
          by_cases hwd : isWS d = true
          · rw [hcd, wsToSp_ws hwd] at hor
            rcases hor with h | h <;> simp at h
          · have hfd : isWS d = false := by
              cases hx : isWS d with
              | false => rfl
              | true => exact absurd hx hwd
            rw [hcd, wsToSp_not_ws hfd] at hor
            exact hdn hor

/-- C2: amended.  The address, city, state, zip and suppliers normalizers are
idempotent — applying any of them twice yields the same string as applying it
once, for every input.  The claim's inclusion of the retailer normalizer and
the category canonicalizer is wrong: see the counterexample. -/
theorem c2_idempotent :
    (∀ s : List Nat, normalize_address (normalize_address s) = normalize_address s) ∧
    (∀ s : List Nat, normalize_city (normalize_city s) = normalize_city s) ∧
    (∀ s : List Nat, normalize_state (normalize_state s) = normalize_state s) ∧
    (∀ s : List Nat, normalize_zip (normalize_zip s) = normalize_zip s) ∧
    (∀ s : List Nat, canonical_suppliers (canonical_suppliers s) = canonical_suppliers s) :=
  ⟨normalize_address_idem, normalize_city_idem, normalize_state_idem,
   normalize_zip_idem, canonical_suppliers_idem⟩

/-- C2 counterexample: the retailer normalizer is not idempotent — on
"company" one pass gives "co" (the company-abbreviation rule) and a second
pass rewrites that "co" to "cooperative" (the co-op rule).  The category
canonicalizer is not idempotent either — on "nan, x" one pass keeps the text
before the first comma, "nan", and a second pass maps "nan" to the empty
string. -/
theorem c2_counterexample :
    ¬ normalize_retailer (normalize_retailer (str "company")) =
        normalize_retailer (str "company") ∧
    ¬ canonicalize_category (canonicalize_category (str "nan, x")) =
        canonicalize_category (str "nan, x") :=
  ⟨by decide, by decide⟩
